import Mathlib

/-
Verification of the shape-inference core in
tensorflow/core/framework/shape_inference.cc.

The arena of `Dimension`s and `Shape`s owned by one `InferenceContext` is
embedded as explicit lists; a handle is the index at which the value was
pushed (pointer identity in the C++ source becomes index equality here,
which preserves the identity-based fast paths).  Fallible operations return
the (possibly grown) context together with `Except Err handle`; a C++
error return that sets the out-parameter to nullptr is the `.error` case.
-/

namespace SI

/-- Modelled from the spec (§3): class `Dimension` is declared in
shape_inference.h, which is not under src/.  An axis size is either a known
integer or unknown ("sentinel UNKNOWN when size is not yet known"); the
spec treats unknown as a distinguished state, embedded here as `none`. -/
structure Dimension where
  value_ : Option Int
deriving DecidableEq, Repr

/-- Modelled from the spec (§3): class `Shape` is declared in
shape_inference.h, which is not under src/.  A shape is an ordered sequence
of `Dimension` handles when its rank is known, or a rank-unknown marker
(`none`); handles are indices into the owning context's dimension arena. -/
structure Shape where
  dims_ : Option (List Nat)
deriving DecidableEq, Repr

/-- Modelled from the spec (§6): the tensor collaborator's element-type tag;
`DT_INT32`/`DT_INT64` are named in shape_inference.cc, the other tags stand
for the unsupported element types the code rejects. -/
inductive DataType where
  | DT_INT32
  | DT_INT64
  | DT_FLOAT
  | DT_STRING
  | DT_BOOL
deriving DecidableEq, Repr

/-- Modelled from the spec (§6): the tensor collaborator interface consumed:
its own shape (`t->shape().dims()` is the length of `shape_dims`), its
element-type tag, and indexed element access to the flattened contents. -/
structure Tensor where
  shape_dims : List Nat
  dtype : DataType
  flat : List Int
deriving DecidableEq, Repr

/-- The error kinds produced by shape_inference.cc (all are
`errors::InvalidArgument` in the source; each constructor records the
numbers the corresponding message interpolates). -/
inductive Err where
  | rankMismatch (expected actual : Nat)
  | valueMismatch (expected actual : Int)
  | rankConflict (r0 r1 : Nat)
  | dimConflict (v0 v1 : Int)
  | dimConflictAt (axis : Nat) (v0 v1 : Int)
  | negativeStart (start : Int)
  | rankBelowStart (start : Int) (rank : Nat)
  | tensorNotRank1 (actualRank : Nat)
  | tensorNotIntType (dtype : DataType)
deriving DecidableEq, Repr

/-- The inference session (class `InferenceContext`): the arenas `all_dims_`
and `all_shapes_` own every value created during the session; `inputs_` and
`outputs_` hold shape handles; `input_tensors_` holds the optionally
materialized tensor contents (`none` embeds a null `Tensor*`). -/
structure InferenceContext where
  all_dims_ : List Dimension
  all_shapes_ : List Shape
  inputs_ : List Nat
  outputs_ : List Nat
  input_tensors_ : List (Option Tensor)
deriving DecidableEq, Repr

instance instDecEqExcept : DecidableEq (Except Err Nat) := fun a b =>
  match a, b with
  | .ok x, .ok y => decidable_of_iff (x = y) (by simp)
  | .error x, .error y => decidable_of_iff (x = y) (by simp)
  | .ok _, .error _ => isFalse (by intro g; exact Except.noConfusion g)
  | .error _, .ok _ => isFalse (by intro g; exact Except.noConfusion g)

/-- Dereference a dimension handle (out-of-arena handles read as an unknown
dimension; the C++ source never produces such handles). -/
def getDim (c : InferenceContext) (d : Nat) : Dimension :=
  c.all_dims_.getD d ⟨none⟩

/-- Dereference a shape handle. -/
def getShape (c : InferenceContext) (s : Nat) : Shape :=
  c.all_shapes_.getD s ⟨none⟩

/-- Modelled from the spec (§3): `InferenceContext::Value` from
shape_inference.h; `none` is the unknown sentinel. -/
def Value (c : InferenceContext) (d : Nat) : Option Int :=
  (getDim c d).value_

/-- Modelled from the spec (§3): `InferenceContext::Rank`;
`none` is the rank-unknown sentinel, otherwise the number of axes. -/
def Rank (c : InferenceContext) (s : Nat) : Option Nat :=
  ((getShape c s).dims_).map List.length

/-- Modelled from the spec (§3): `InferenceContext::Dim`, the dimension
handle of `s` at axis `i`. -/
def Dim (c : InferenceContext) (s : Nat) (i : Nat) : Nat :=
  ((getShape c s).dims_.getD []).getD i 0

/-- `InferenceContext::CreateDim` (shape_inference.cc): push a new known
dimension; the handle is the index of the pushed entry. -/
def CreateDim (c : InferenceContext) (value : Int) : InferenceContext × Nat :=
  ({ c with all_dims_ := c.all_dims_ ++ [⟨some value⟩] }, c.all_dims_.length)

/-- `InferenceContext::CreateUnknownDim` (shape_inference.cc). -/
def CreateUnknownDim (c : InferenceContext) : InferenceContext × Nat :=
  ({ c with all_dims_ := c.all_dims_ ++ [⟨none⟩] }, c.all_dims_.length)

/-- `InferenceContext::CreateShape` (shape_inference.cc). -/
def CreateShape (c : InferenceContext) (dims : List Nat) :
    InferenceContext × Nat :=
  ({ c with all_shapes_ := c.all_shapes_ ++ [⟨some dims⟩] },
   c.all_shapes_.length)

/-- `InferenceContext::CreateUnknownShape` (shape_inference.cc). -/
def CreateUnknownShape (c : InferenceContext) : InferenceContext × Nat :=
  ({ c with all_shapes_ := c.all_shapes_ ++ [⟨none⟩] }, c.all_shapes_.length)

/-- Modelled from the spec (§4.1/§4.4): `ReturnUnknownShape` from
shape_inference.h — create an unknown shape and return OK with it. -/
def ReturnUnknownShape (c : InferenceContext) :
    InferenceContext × Except Err Nat :=
  let p := CreateUnknownShape c
  (p.1, .ok p.2)

/-- Modelled from the spec (§4.1/§4.4): `ReturnCreatedShape` from
shape_inference.h — create a shape with the given dims and return OK. -/
def ReturnCreatedShape (c : InferenceContext) (dims : List Nat) :
    InferenceContext × Except Err Nat :=
  let p := CreateShape c dims
  (p.1, .ok p.2)

/-- The dimension-allocating loop of `InferenceContext::WithRank`
(shape_inference.cc lines 100-105): push `n` fresh unknown dimensions and
collect their handles in order. -/
def addUnknownDims (c : InferenceContext) : Nat → InferenceContext × List Nat
  | 0 => (c, [])
  | n + 1 =>
    let p := CreateUnknownDim c
    let q := addUnknownDims p.1 n
    (q.1, p.2 :: q.2)

/-- `InferenceContext::WithRank` (shape_inference.cc lines 92-113): equal
known rank returns the same handle; unknown rank manufactures a fresh shape
of `rank` fresh unknown dimensions; a different known rank is an error. -/
def WithRank (c : InferenceContext) (shape : Nat) (rank : Nat) :
    InferenceContext × Except Err Nat :=
  match Rank c shape with
  | some existing =>
    if existing = rank then (c, .ok shape)
    else (c, .error (.rankMismatch rank existing))
  | none =>
    let p := addUnknownDims c rank
    let q := CreateShape p.1 p.2
    (q.1, .ok q.2)

/-- `InferenceContext::WithValue` (shape_inference.cc lines 115-130). -/
def WithValue (c : InferenceContext) (dim : Nat) (value : Int) :
    InferenceContext × Except Err Nat :=
  match Value c dim with
  | some existing =>
    if existing = value then (c, .ok dim)
    else (c, .error (.valueMismatch value existing))
  | none =>
    let p := CreateDim c value
    (p.1, .ok p.2)

/-- `InferenceContext::Merge` on dimensions (shape_inference.cc lines
132-148): identical handles or unknown `d1` yield `d0`; unknown `d0` yields
`d1`; equal known values yield `d0`; different known values conflict. -/
def MergeDim (c : InferenceContext) (d0 d1 : Nat) :
    InferenceContext × Except Err Nat :=
  if d0 = d1 then (c, .ok d0)
  else
    match Value c d0, Value c d1 with
    | _, none => (c, .ok d0)
    | none, some _ => (c, .ok d1)
    | some v0, some v1 =>
      if v0 = v1 then (c, .ok d0)
      else (c, .error (.dimConflict v0 v1))

/-- The per-axis scan of `InferenceContext::Merge` on shapes
(shape_inference.cc lines 167-188): walks both dimension-handle lists in
lockstep carrying the axis counter and the `return_s0`/`return_s1` flags;
the first axis with two different known values aborts the scan. -/
def mergeScan (c : InferenceContext) :
    List Nat → List Nat → Nat → Bool → Bool →
    Except (Nat × Int × Int) (Bool × Bool)
  | [], _, _, r0, r1 => .ok (r0, r1)
  | _ :: _, [], _, r0, r1 => .ok (r0, r1)
  | d0 :: t0, d1 :: t1, i, r0, r1 =>
    if d0 = d1 then mergeScan c t0 t1 (i + 1) r0 r1
    else
      match Value c d0, Value c d1 with
      | none, none => mergeScan c t0 t1 (i + 1) r0 r1
      | none, some _ => mergeScan c t0 t1 (i + 1) false r1
      | some _, none => mergeScan c t0 t1 (i + 1) r0 false
      | some v0, some v1 =>
        if v0 = v1 then mergeScan c t0 t1 (i + 1) r0 r1
        else .error (i, v0, v1)

/-- The dim-merging loop of `InferenceContext::Merge` on shapes
(shape_inference.cc lines 194-199): the axis-i result dimension is the
dimension-merge of the operands' axis-i dimensions.  The `.error` fallback
mirrors `TF_CHECK_OK` — it is unreachable because the scan already excluded
conflicts. -/
def mergeDims (c : InferenceContext) : List Nat → List Nat → List Nat
  | d0 :: t0, d1 :: t1 =>
    (match (MergeDim c d0 d1).2 with
     | .ok d => d
     | .error _ => d0) :: mergeDims c t0 t1
  | _, _ => []

/-- `InferenceContext::Merge` on shapes (shape_inference.cc lines 150-201). -/
def MergeShape (c : InferenceContext) (s0 s1 : Nat) :
    InferenceContext × Except Err Nat :=
  if s0 = s1 then (c, .ok s0)
  else
    match (getShape c s0).dims_, (getShape c s1).dims_ with
    | _, none => (c, .ok s0)
    | none, some _ => (c, .ok s1)
    | some ds0, some ds1 =>
      if ds0.length ≠ ds1.length then
        (c, .error (.rankConflict ds0.length ds1.length))
      else
        match mergeScan c ds0 ds1 0 true true with
        | .error e => (c, .error (.dimConflictAt e.1 e.2.1 e.2.2))
        | .ok flags =>
          if flags.1 || flags.2 then
            (c, .ok (if flags.1 then s0 else s1))
          else
            ReturnCreatedShape c (mergeDims c ds0 ds1)

/-- `InferenceContext::Subshape` (shape_inference.cc lines 203-229). -/
def Subshape (c : InferenceContext) (s : Nat) (start : Int) :
    InferenceContext × Except Err Nat :=
  if start < 0 then (c, .error (.negativeStart start))
  else if start = 0 then (c, .ok s)
  else
    match (getShape c s).dims_ with
    | none => ReturnUnknownShape c
    | some ds =>
      if (ds.length : Int) < start then
        (c, .error (.rankBelowStart start ds.length))
      else
        ReturnCreatedShape c (ds.drop start.toNat)

/-- `InferenceContext::Concatenate` (shape_inference.cc lines 231-244). -/
def Concatenate (c : InferenceContext) (s1 s2 : Nat) :
    InferenceContext × Except Err Nat :=
  match (getShape c s1).dims_, (getShape c s2).dims_ with
  | none, _ => ReturnUnknownShape c
  | _, none => ReturnUnknownShape c
  | some ds1, some ds2 => ReturnCreatedShape c (ds1 ++ ds2)

/-- `InferenceContext::input_tensor`: the materialized contents of input
`idx`, `none` when the producing value is not statically known. -/
def input_tensor (c : InferenceContext) (idx : Nat) : Option Tensor :=
  c.input_tensors_.getD idx none

/-- The element loop of `InferenceContext::CreateShapeFromShapeTensor`
(shape_inference.cc lines 270-278): one `CreateDim` per element, in
element order. -/
def createDimsFromValues (c : InferenceContext) :
    List Int → InferenceContext × List Nat
  | [] => (c, [])
  | v :: vs =>
    let p := CreateDim c v
    let q := createDimsFromValues p.1 vs
    (q.1, p.2 :: q.2)

/-- `InferenceContext::CreateShapeFromShapeTensor` (shape_inference.cc
lines 257-287). -/
def CreateShapeFromShapeTensor (c : InferenceContext) (input_idx : Nat) :
    InferenceContext × Except Err Nat :=
  match input_tensor c input_idx with
  | none => ReturnUnknownShape c
  | some t =>
    if t.shape_dims.length ≠ 1 then
      (c, .error (.tensorNotRank1 t.shape_dims.length))
    else
      match t.dtype with
      | .DT_INT32 =>
        let p := createDimsFromValues c t.flat
        ReturnCreatedShape p.1 p.2
      | .DT_INT64 =>
        let p := createDimsFromValues c t.flat
        ReturnCreatedShape p.1 p.2
      | d => (c, .error (.tensorNotIntType d))

/-! ## Shape-specifier parsing (the `InferenceContext` constructor)

The constructor (shape_inference.cc lines 27-69) drives a character scanner
over each specifier.  The scanner itself is an external string utility
(spec §1): it is embedded below as direct recursion over the character
list, consuming exactly the characters the `strings::Scanner` calls
consume.  A `CHECK` failure in the source (malformed specifier, too many
input tensors) aborts the process; that is embedded as `none`. -/

/-- Numeric value of a decimal digit character. -/
def digitVal (ch : Char) : Nat :=
  ch.toNat - '0'.toNat

/-- `strings::safe_strto64` rejects values that overflow a signed 64-bit
integer; this is its upper bound. -/
def int64Max : Nat := 2 ^ 63 - 1

mutual

/-- The per-axis loop head of the constructor (shape_inference.cc lines
38-57), entered just after `[` or after a consumed `,`: a `]` here ends the
shape (and must be the final character, per `.Eos()`); `?` is an unknown
axis; a digit starts a number; anything else fails the scanner's `CHECK`. -/
def parseAxes (cs : List Char) : Option (List (Option Nat)) :=
  match cs with
  | [] => none
  | ch :: rest =>
    if ch = ']' then (if rest = [] then some [] else none)
    else if ch = '?' then parseSep none rest
    else if ch.isDigit then parseNum (digitVal ch) rest
    else none
termination_by (cs.length, 0)

/-- `Many(DIGIT)` followed by `safe_strto64` (shape_inference.cc lines
43-49): consume the remaining digits of a number, then check the 64-bit
bound and hand the completed axis to the separator logic. -/
def parseNum (acc : Nat) (cs : List Char) : Option (List (Option Nat)) :=
  match cs with
  | [] => none
  | ch :: rest =>
    if ch.isDigit then parseNum (acc * 10 + digitVal ch) rest
    else if acc ≤ int64Max then parseSep (some acc) (ch :: rest) else none
termination_by (cs.length, 1)

/-- The separator logic after a completed axis (shape_inference.cc lines
52-58): a `,` is consumed and the loop continues; otherwise the next
character must be `]` (`CHECK_EQ`), which then ends the shape and must be
final. -/
def parseSep (ax : Option Nat) (cs : List Char) : Option (List (Option Nat)) :=
  match cs with
  | [] => none
  | ch :: rest =>
    if ch = ',' then (parseAxes rest).map (fun l => ax :: l)
    else if ch = ']' then (if rest = [] then some [ax] else none)
    else none
termination_by (cs.length, 0)

end

/-- Materialize parsed axes in scan order (shape_inference.cc lines 41 and
49): `?` becomes `CreateUnknownDim`, a number becomes `CreateDim`. -/
def materializeAxes (c : InferenceContext) :
    List (Option Nat) → InferenceContext × List Nat
  | [] => (c, [])
  | none :: rest =>
    let p := CreateUnknownDim c
    let q := materializeAxes p.1 rest
    (q.1, p.2 :: q.2)
  | some v :: rest =>
    let p := CreateDim c (v : Int)
    let q := materializeAxes p.1 rest
    (q.1, p.2 :: q.2)

/-- One iteration of the constructor's specifier loop (shape_inference.cc
lines 31-60): `"?"` adds an unknown input shape, otherwise the specifier
must start with `[` and parse per the grammar; the resulting shape handle
is appended to `inputs_`. -/
def addInputShape (c : InferenceContext) (spec : String) :
    Option InferenceContext :=
  if spec = "?" then
    let p := CreateUnknownShape c
    some { p.1 with inputs_ := p.1.inputs_ ++ [p.2] }
  else
    match spec.data with
    | '[' :: rest =>
      match parseAxes rest with
      | none => none
      | some axes =>
        let p := materializeAxes c axes
        let q := CreateShape p.1 p.2
        some { q.1 with inputs_ := q.1.inputs_ ++ [q.2] }
    | _ => none

/-- The constructor's loop over all specifiers. -/
def addAllInputs (c : InferenceContext) :
    List String → Option InferenceContext
  | [] => some c
  | spec :: rest =>
    match addInputShape c spec with
    | none => none
    | some c1 => addAllInputs c1 rest

/-- The constructor's output loop (shape_inference.cc lines 66-68): one
fresh unknown shape per output slot. -/
def addOutputs (c : InferenceContext) : Nat → InferenceContext
  | 0 => c
  | n + 1 =>
    let p := CreateUnknownShape c
    addOutputs { p.1 with outputs_ := p.1.outputs_ ++ [p.2] } n

/-- `InferenceContext::InferenceContext` (shape_inference.cc lines 27-69):
parse every input specifier, enforce `CHECK_LE(input_tensors_.size(),
input_shapes.size())`, pad the tensor list with absent entries
(`resize`), and materialize the unknown output placeholders. -/
def mkContext (input_shapes : List String) (num_outputs : Nat)
    (input_tensors : List (Option Tensor)) : Option InferenceContext :=
  if input_shapes.length < input_tensors.length then none
  else
    match addAllInputs ⟨[], [], [], [], input_tensors⟩ input_shapes with
    | none => none
    | some c1 =>
      let c2 := { c1 with
        input_tensors_ := c1.input_tensors_ ++
          List.replicate (input_shapes.length - c1.input_tensors_.length)
            none }
      some (addOutputs c2 num_outputs)

/-! ## Debug rendering (shape_inference.cc lines 76-88) -/

/-- Decimal digit character of `d` (`d < 10` in every use). -/
def digitChar (d : Nat) : Char :=
  match d with
  | 0 => '0'
  | 1 => '1'
  | 2 => '2'
  | 3 => '3'
  | 4 => '4'
  | 5 => '5'
  | 6 => '6'
  | 7 => '7'
  | 8 => '8'
  | _ => '9'

/-- Decimal numeral of a natural number, most significant digit first
(models the numeric formatting `strings::StrCat` delegates to, an external
utility per spec §1). -/
def natRepr (n : Nat) : List Char :=
  if n < 10 then [digitChar n]
  else natRepr (n / 10) ++ [digitChar (n % 10)]
decreasing_by exact Nat.div_lt_self (by omega) (by omega)

/-- Decimal rendering of a signed value. -/
def intRepr (v : Int) : List Char :=
  if v < 0 then '-' :: natRepr v.natAbs else natRepr v.toNat

/-- `InferenceContext::DebugString` on a dimension (shape_inference.cc
lines 86-88): the value's decimal form, or `"?"` when unknown. -/
def DebugStringDim (c : InferenceContext) (d : Nat) : String :=
  match Value c d with
  | some v => String.mk (intRepr v)
  | none => "?"

/-- `str_util::Join(vals, ",")`, the external joining utility
(spec §1) used by `DebugString`. -/
def joinComma : List String → String
  | [] => ""
  | [x] => x
  | x :: rest => x ++ "," ++ joinComma rest

/-- `InferenceContext::DebugString` on a shape (shape_inference.cc lines
76-84). -/
def DebugStringShape (c : InferenceContext) (s : Nat) : String :=
  match (getShape c s).dims_ with
  | none => "?"
  | some ds => "[" ++ joinComma (ds.map (DebugStringDim c)) ++ "]"

/-! ## Specification-side helpers

Predicates and observation functions used only to state the claims; they
are not translations of source code. -/

/-- Axis `i` of the two operand shapes conflicts: both values are known and
they differ. -/
def axisConflict (c : InferenceContext) (d0 d1 : Nat) : Prop :=
  Value c d0 ≠ none ∧ Value c d1 ≠ none ∧ Value c d0 ≠ Value c d1

instance (c : InferenceContext) (d0 d1 : Nat) :
    Decidable (axisConflict c d0 d1) := by
  unfold axisConflict; infer_instance

/-- No axis of the zipped operand lists conflicts. -/
def noConflict (c : InferenceContext) (l0 l1 : List Nat) : Prop :=
  ∀ p ∈ List.zip l0 l1, ¬ axisConflict c p.1 p.2

instance (c : InferenceContext) (l0 l1 : List Nat) :
    Decidable (noConflict c l0 l1) := by
  unfold noConflict; infer_instance

/-- Some axis is unknown in the first operand but known in the second, so
the first operand cannot represent the second's knowledge (this drives the
`return_s0` flag of the shape merge). -/
def block0 (c : InferenceContext) (l0 l1 : List Nat) : Bool :=
  (List.zip l0 l1).any fun p => (Value c p.1).isNone && (Value c p.2).isSome

/-- Symmetric counterpart driving `return_s1`. -/
def block1 (c : InferenceContext) (l0 l1 : List Nat) : Bool :=
  (List.zip l0 l1).any fun p => (Value c p.1).isSome && (Value c p.2).isNone

/-- The logical shape a handle describes: rank-known status, rank, and the
known-or-unknown resolved value of every axis (spec §8's notion of "same
logical shape"). -/
def shapeDesc (c : InferenceContext) (s : Nat) : Option (List (Option Int)) :=
  ((getShape c s).dims_).map fun ds => ds.map (Value c)

/-- The canonical specifier text of an axis per the §4.8 grammar. -/
def axisString : Option Nat → String
  | none => "?"
  | some v => String.mk (natRepr v)

/-- The canonical specifier text of a shape per the §4.8 grammar:
`"?"`, or `[`, a comma-separated axis list, `]`. -/
def specString : Option (List (Option Nat)) → String
  | none => "?"
  | some axes => "[" ++ joinComma (axes.map axisString) ++ "]"

/-- Well-formedness of a grammar shape: every known axis value fits in a
signed 64-bit integer (the bound `safe_strto64` enforces). -/
def specWellFormed : Option (List (Option Nat)) → Prop
  | none => True
  | some axes => ∀ ax ∈ axes, ax.getD 0 ≤ int64Max

instance (t : Option (List (Option Nat))) : Decidable (specWellFormed t) :=
  match t with
  | none => by unfold specWellFormed; infer_instance
  | some _ => by unfold specWellFormed; infer_instance

/-! ## Arena helper lemmas -/

theorem getShape_append_self (c : InferenceContext) (sh : Shape) :
    getShape { c with all_shapes_ := c.all_shapes_ ++ [sh] }
      c.all_shapes_.length = sh := by
  unfold getShape
  rw [List.getD_append_right _ _ _ _ (le_refl _)]
  simp

theorem value_append_shapes (c : InferenceContext) (l : List Shape) (d : Nat) :
    Value { c with all_shapes_ := l } d = Value c d := rfl

theorem addUnknownDims_eq (n : Nat) (c : InferenceContext) :
    addUnknownDims c n =
      ({ c with all_dims_ := c.all_dims_ ++ List.replicate n ⟨none⟩ },
       List.range' c.all_dims_.length n) := by
  induction n generalizing c with
  | zero => simp [addUnknownDims]
  | succ n ih =>
    simp [addUnknownDims, CreateUnknownDim, ih, List.range'_succ,
      List.replicate_succ, List.append_assoc]

theorem createDimsFromValues_eq (vs : List Int) (c : InferenceContext) :
    createDimsFromValues c vs =
      ({ c with all_dims_ := c.all_dims_ ++ vs.map (fun v => ⟨some v⟩) },
       List.range' c.all_dims_.length vs.length) := by
  induction vs generalizing c with
  | nil => simp [createDimsFromValues]
  | cons v vs ih =>
    simp [createDimsFromValues, CreateDim, ih, List.length_cons,
      List.range'_succ, List.append_assoc]

theorem mergeDim_fst (c : InferenceContext) (d0 d1 : Nat) :
    (MergeDim c d0 d1).1 = c := by
  unfold MergeDim
  by_cases h : d0 = d1
  · simp [h]
  · simp only [h, if_false]
    rcases Value c d0 with _ | v0 <;> rcases Value c d1 with _ | v1 <;> simp
    by_cases hv : v0 = v1 <;> simp [hv]

/-! ## Claim C2: dimension merge performs its checks in the specified
total order. -/

/-- C2: dimension merge, total order of checks — (1) identical handles or
unknown `d1` return `d0`; (2) unknown `d0` returns `d1`; (3) equal known
values return `d0` (the first operand); (4) different known values fail
with a dimension-conflict error reporting both values.  The context is
returned unchanged in every case. -/
theorem C2_dim_merge_order (c : InferenceContext) (d0 d1 : Nat) :
    ((d0 = d1 ∨ Value c d1 = none) → MergeDim c d0 d1 = (c, .ok d0))
    ∧ (d0 ≠ d1 → Value c d0 = none → Value c d1 ≠ none →
        MergeDim c d0 d1 = (c, .ok d1))
    ∧ (∀ v0 v1, Value c d0 = some v0 → Value c d1 = some v1 → v0 = v1 →
        MergeDim c d0 d1 = (c, .ok d0))
    ∧ (∀ v0 v1, Value c d0 = some v0 → Value c d1 = some v1 → v0 ≠ v1 →
        MergeDim c d0 d1 = (c, .error (.dimConflict v0 v1))) := by
  refine ⟨?_, ?_, ?_, ?_⟩
  · rintro (h | h)
    · simp [MergeDim, h]
    · by_cases hd : d0 = d1
      · simp [MergeDim, hd]
      · simp [MergeDim, hd, h]
  · intro hd h0 h1
    obtain ⟨v, hv⟩ := Option.ne_none_iff_exists'.mp h1
    simp [MergeDim, hd, h0, hv]
  · intro v0 v1 h0 h1 he
    by_cases hd : d0 = d1
    · simp [MergeDim, hd]
    · simp [MergeDim, hd, h0, h1, he]
  · intro v0 v1 h0 h1 hne
    by_cases hd : d0 = d1
    · exfalso
      apply hne
      rw [hd] at h0
      rw [h0] at h1
      exact Option.some.inj h1
    · simp [MergeDim, hd, h0, h1, hne]

/-- Arena for the C2 witness: one unknown dimension and three known ones
(5, 5, 7). -/
def ctxC2 : InferenceContext :=
  ⟨[⟨none⟩, ⟨some 5⟩, ⟨some 5⟩, ⟨some 7⟩], [], [], [], []⟩

theorem C2_dim_merge_order_witness :
    MergeDim ctxC2 1 0 = (ctxC2, .ok 1)
    ∧ MergeDim ctxC2 0 1 = (ctxC2, .ok 1)
    ∧ MergeDim ctxC2 1 2 = (ctxC2, .ok 1)
    ∧ MergeDim ctxC2 1 3 = (ctxC2, .error (.dimConflict 5 7)) :=
  ⟨(C2_dim_merge_order ctxC2 1 0).1 (Or.inr (by decide)),
   (C2_dim_merge_order ctxC2 0 1).2.1 (by decide) (by decide) (by decide),
   (C2_dim_merge_order ctxC2 1 2).2.2.1 5 5 (by decide) (by decide) rfl,
   (C2_dim_merge_order ctxC2 1 3).2.2.2 5 7 (by decide) (by decide)
     (by decide)⟩

/-! ## Claim C3: identity and unknown-absorption fast paths of dimension
merge.

The claim as stated fails when both operands are unknown but distinct
handles: the source's first branch (`d0 == d1 || !ValueKnown(d1)`) returns
the *first* operand, so `merge(unknown, d)` with an unknown `d` returns the
first unknown handle, not `d`. -/

/-- Arena for the C3 counterexample: two distinct unknown dimensions. -/
def ctxC3 : InferenceContext :=
  ⟨[⟨none⟩, ⟨none⟩], [], [], [], []⟩

/-- C3 counterexample: dimension handles 0 and 1 are both unknown and
distinct; merging the unknown dimension 0 with d = 1 returns handle 0 (the
first operand), not d — refuting `merge(unknown, d) == d` as
returned-handle equality for unknown `d`. -/
theorem C3_counterexample :
    Value ctxC3 0 = none ∧ Value ctxC3 1 = none ∧ (0 : Nat) ≠ 1
    ∧ MergeDim ctxC3 0 1 = (ctxC3, .ok 0)
    ∧ (MergeDim ctxC3 0 1).2 ≠ .ok 1 := by decide

/-- C3 amended: `merge(d, d) == d` and `merge(d, unknown) == d` hold for
every dimension `d` (returned-handle equality); `merge(unknown, d) == d`
holds whenever `d`'s value is known; when both operands are unknown, the
merge returns the first operand's handle instead. -/
theorem C3_amended_identity (c : InferenceContext) (d u : Nat) :
    (MergeDim c d d = (c, .ok d))
    ∧ (Value c u = none → MergeDim c d u = (c, .ok d))
    ∧ (Value c u = none → Value c d ≠ none → MergeDim c u d = (c, .ok d))
    ∧ (Value c u = none → Value c d = none → MergeDim c u d = (c, .ok u)) := by
  refine ⟨by simp [MergeDim], ?_, ?_, ?_⟩
  · intro hu
    by_cases hd : d = u
    · simp [MergeDim, hd]
    · simp [MergeDim, hd, hu]
  · intro hu hd
    obtain ⟨v, hv⟩ := Option.ne_none_iff_exists'.mp hd
    by_cases he : u = d
    · simp [MergeDim, he]
    · simp [MergeDim, he, hu, hv]
  · intro hu hd
    by_cases he : u = d
    · simp [MergeDim, he]
    · simp [MergeDim, he, hd]

/-- Arena for the C3 witness: an unknown dimension and a known one. -/
def ctxC3w : InferenceContext :=
  ⟨[⟨none⟩, ⟨some 4⟩, ⟨none⟩], [], [], [], []⟩

theorem C3_amended_identity_witness :
    MergeDim ctxC3w 1 1 = (ctxC3w, .ok 1)
    ∧ MergeDim ctxC3w 1 0 = (ctxC3w, .ok 1)
    ∧ MergeDim ctxC3w 0 1 = (ctxC3w, .ok 1)
    ∧ MergeDim ctxC3w 0 2 = (ctxC3w, .ok 0) :=
  ⟨(C3_amended_identity ctxC3w 1 0).1,
   (C3_amended_identity ctxC3w 1 0).2.1 (by decide),
   (C3_amended_identity ctxC3w 1 0).2.2.1 (by decide) (by decide),
   (C3_amended_identity ctxC3w 2 0).2.2.2 (by decide) (by decide)⟩

/-! ## Claim C5: WithRank (assert_rank). -/

/-- C5: `WithRank` on a shape of known rank equal to the requested rank
returns the same handle with the context unchanged; on a different known
rank it fails with a rank-mismatch error reporting expected and actual; on
a rank-unknown shape it pushes exactly `rank` fresh unknown dimensions and
one fresh shape over them — every new dimension handle is fresh (at or
beyond the old arena end), they are pairwise distinct, each is unknown,
and the returned shape has the requested rank. -/
theorem C5_with_rank (c : InferenceContext) (s : Nat) (rank : Nat) :
    (Rank c s = some rank → WithRank c s rank = (c, .ok s))
    ∧ (∀ r', Rank c s = some r' → r' ≠ rank →
        WithRank c s rank = (c, .error (.rankMismatch rank r')))
    ∧ (Rank c s = none →
        WithRank c s rank =
          ({ c with
             all_dims_ := c.all_dims_ ++ List.replicate rank ⟨none⟩,
             all_shapes_ := c.all_shapes_ ++
               [⟨some (List.range' c.all_dims_.length rank)⟩] },
           .ok c.all_shapes_.length)
        ∧ Rank (WithRank c s rank).1 c.all_shapes_.length = some rank
        ∧ (List.range' c.all_dims_.length rank).Nodup
        ∧ ∀ d ∈ List.range' c.all_dims_.length rank,
            c.all_dims_.length ≤ d ∧ Value (WithRank c s rank).1 d = none) := by
  refine ⟨?_, ?_, ?_⟩
  · intro h
    simp [WithRank, h]
  · intro r' h hne
    simp [WithRank, h, hne]
  · intro h
    have heq : WithRank c s rank =
        ({ c with
           all_dims_ := c.all_dims_ ++ List.replicate rank ⟨none⟩,
           all_shapes_ := c.all_shapes_ ++
             [⟨some (List.range' c.all_dims_.length rank)⟩] },
         .ok c.all_shapes_.length) := by
      simp [WithRank, h, addUnknownDims_eq, CreateShape]
    refine ⟨heq, ?_, ?_, ?_⟩
    · rw [heq]
      unfold Rank
      have := getShape_append_self
        { c with all_dims_ := c.all_dims_ ++ List.replicate rank ⟨none⟩ }
        ⟨some (List.range' c.all_dims_.length rank)⟩
      simp only at this
      rw [this]
      simp
    · exact List.nodup_range' _ _
    · intro d hd
      rw [List.mem_range'_1] at hd
      refine ⟨hd.1, ?_⟩
      rw [heq]
      unfold Value getDim
      simp only
      rw [List.getD_append_right _ _ _ _ hd.1,
        List.getD_eq_getElem?_getD, List.getElem?_replicate,
        if_pos (by omega : d - c.all_dims_.length < rank)]
      rfl

/-- Arena for the C5 witness: a rank-2 shape and a rank-unknown shape. -/
def ctxC5 : InferenceContext :=
  ⟨[⟨some 2⟩, ⟨some 3⟩], [⟨some [0, 1]⟩, ⟨none⟩], [], [], []⟩

theorem C5_with_rank_witness :
    WithRank ctxC5 0 2 = (ctxC5, .ok 0)
    ∧ WithRank ctxC5 0 3 = (ctxC5, .error (.rankMismatch 3 2))
    ∧ WithRank ctxC5 1 2 =
        ({ ctxC5 with
           all_dims_ := ctxC5.all_dims_ ++ List.replicate 2 ⟨none⟩,
           all_shapes_ := ctxC5.all_shapes_ ++ [⟨some (List.range' 2 2)⟩] },
         .ok 2) :=
  ⟨(C5_with_rank ctxC5 0 2).1 (by decide),
   (C5_with_rank ctxC5 0 3).2.1 2 (by decide) (by decide),
   ((C5_with_rank ctxC5 1 2).2.2 (by decide)).1⟩

/-! ## Claim C6: Subshape. -/

/-- C6: `Subshape` checks its cases in order — a negative `start` always
fails with InvalidArgument (even on rank-unknown shapes); `start = 0`
returns the identical handle; a positive `start` on a rank-unknown shape
returns a fresh unknown shape; a known rank below `start` fails with
InvalidArgument; otherwise a fresh shape reusing exactly the dimension
handles at positions `start` through `rank-1` is returned. -/
theorem C6_subshape (c : InferenceContext) (s : Nat) (start : Int) :
    (start < 0 → Subshape c s start = (c, .error (.negativeStart start)))
    ∧ (start = 0 → Subshape c s start = (c, .ok s))
    ∧ (0 < start → (getShape c s).dims_ = none →
        Subshape c s start =
          ({ c with all_shapes_ := c.all_shapes_ ++ [⟨none⟩] },
           .ok c.all_shapes_.length))
    ∧ (∀ ds, 0 < start → (getShape c s).dims_ = some ds →
        (ds.length : Int) < start →
        Subshape c s start = (c, .error (.rankBelowStart start ds.length)))
    ∧ (∀ ds, 0 < start → (getShape c s).dims_ = some ds →
        start ≤ (ds.length : Int) →
        Subshape c s start =
          ({ c with all_shapes_ :=
              c.all_shapes_ ++ [⟨some (ds.drop start.toNat)⟩] },
           .ok c.all_shapes_.length)) := by
  refine ⟨?_, ?_, ?_, ?_, ?_⟩
  · intro h
    simp [Subshape, h]
  · intro h
    simp [Subshape, h]
  · intro hpos hdims
    simp [Subshape, hdims, ReturnUnknownShape, CreateUnknownShape,
      show ¬ start < 0 by omega, show ¬ start = 0 by omega]
  · intro ds hpos hdims hlt
    simp [Subshape, hdims, hlt,
      show ¬ start < 0 by omega, show ¬ start = 0 by omega]
  · intro ds hpos hdims hle
    simp [Subshape, hdims, ReturnCreatedShape, CreateShape,
      show ¬ start < 0 by omega, show ¬ start = 0 by omega,
      show ¬ (ds.length : Int) < start by omega]

/-- Arena for the C6 witness: `[2,3,4]` and a rank-unknown shape. -/
def ctxC6 : InferenceContext :=
  ⟨[⟨some 2⟩, ⟨some 3⟩, ⟨some 4⟩], [⟨some [0, 1, 2]⟩, ⟨none⟩], [], [], []⟩

theorem C6_subshape_witness :
    Subshape ctxC6 0 (-1) = (ctxC6, .error (.negativeStart (-1)))
    ∧ Subshape ctxC6 1 0 = (ctxC6, .ok 1)
    ∧ Subshape ctxC6 1 2 =
        ({ ctxC6 with all_shapes_ := ctxC6.all_shapes_ ++ [⟨none⟩] }, .ok 2)
    ∧ Subshape ctxC6 0 4 = (ctxC6, .error (.rankBelowStart 4 3))
    ∧ Subshape ctxC6 0 1 =
        ({ ctxC6 with all_shapes_ := ctxC6.all_shapes_ ++ [⟨some [1, 2]⟩] },
         .ok 2) :=
  ⟨(C6_subshape ctxC6 0 (-1)).1 (by decide),
   (C6_subshape ctxC6 1 0).2.1 rfl,
   (C6_subshape ctxC6 1 2).2.2.1 (by decide) (by decide),
   (C6_subshape ctxC6 0 4).2.2.2.1 [0, 1, 2] (by decide) (by decide)
     (by decide),
   (C6_subshape ctxC6 0 1).2.2.2.2 [0, 1, 2] (by decide) (by decide)
     (by decide)⟩

/-! ## Claim C7: Concatenate. -/

/-- C7: `Concatenate` returns a fresh rank-unknown shape whenever either
operand is rank-unknown (discarding the other operand's known rank), and
otherwise a fresh shape whose dimension sequence is exactly the handles of
`s1` followed by the handles of `s2` (rank = rank(s1) + rank(s2), handles
reused); it never fails. -/
theorem C7_concatenate (c : InferenceContext) (s1 s2 : Nat) :
    ((getShape c s1).dims_ = none ∨ (getShape c s2).dims_ = none →
        Concatenate c s1 s2 =
          ({ c with all_shapes_ := c.all_shapes_ ++ [⟨none⟩] },
           .ok c.all_shapes_.length))
    ∧ (∀ ds1 ds2, (getShape c s1).dims_ = some ds1 →
        (getShape c s2).dims_ = some ds2 →
        Concatenate c s1 s2 =
          ({ c with all_shapes_ := c.all_shapes_ ++ [⟨some (ds1 ++ ds2)⟩] },
           .ok c.all_shapes_.length)
        ∧ Rank (Concatenate c s1 s2).1 c.all_shapes_.length =
            some (ds1.length + ds2.length))
    ∧ ∃ h, (Concatenate c s1 s2).2 = .ok h := by
  refine ⟨?_, ?_, ?_⟩
  · intro h
    cases h1 : (getShape c s1).dims_ <;> cases h2 : (getShape c s2).dims_ <;>
      simp_all [Concatenate, ReturnUnknownShape, CreateUnknownShape]
  · intro ds1 ds2 h1 h2
    have heq : Concatenate c s1 s2 =
        ({ c with all_shapes_ := c.all_shapes_ ++ [⟨some (ds1 ++ ds2)⟩] },
         .ok c.all_shapes_.length) := by
      simp [Concatenate, h1, h2, ReturnCreatedShape, CreateShape]
    refine ⟨heq, ?_⟩
    rw [heq]
    unfold Rank
    rw [getShape_append_self c ⟨some (ds1 ++ ds2)⟩]
    simp
  · cases h1 : (getShape c s1).dims_ <;> cases h2 : (getShape c s2).dims_ <;>
      simp [Concatenate, h1, h2, ReturnUnknownShape, CreateUnknownShape,
        ReturnCreatedShape, CreateShape]

/-- Arena for the C7 witness: `[2,3]`, `[4]` and a rank-unknown shape. -/
def ctxC7 : InferenceContext :=
  ⟨[⟨some 2⟩, ⟨some 3⟩, ⟨some 4⟩], [⟨some [0, 1]⟩, ⟨some [2]⟩, ⟨none⟩],
   [], [], []⟩

theorem C7_concatenate_witness :
    Concatenate ctxC7 0 2 =
      ({ ctxC7 with all_shapes_ := ctxC7.all_shapes_ ++ [⟨none⟩] }, .ok 3)
    ∧ Concatenate ctxC7 0 1 =
        ({ ctxC7 with
           all_shapes_ := ctxC7.all_shapes_ ++ [⟨some [0, 1, 2]⟩] },
         .ok 3) :=
  ⟨(C7_concatenate ctxC7 0 2).1 (Or.inr (by decide)),
   ((C7_concatenate ctxC7 0 1).2.1 [0, 1] [2] (by decide) (by decide)).1⟩

/-! ## Claim C8: CreateShapeFromShapeTensor. -/

/-- C8: without a materialized tensor the operation succeeds with a fresh
unknown shape; a tensor of rank other than 1 fails with InvalidArgument; a
rank-1 tensor of non-int32/int64 element type fails with InvalidArgument;
otherwise one fresh dimension is created per element in element order, and
every element's value — negative ones included — is stored literally as
the known value of its dimension. -/
theorem C8_shape_from_tensor (c : InferenceContext) (idx : Nat) :
    (input_tensor c idx = none →
        CreateShapeFromShapeTensor c idx =
          ({ c with all_shapes_ := c.all_shapes_ ++ [⟨none⟩] },
           .ok c.all_shapes_.length))
    ∧ (∀ t, input_tensor c idx = some t → t.shape_dims.length ≠ 1 →
        CreateShapeFromShapeTensor c idx =
          (c, .error (.tensorNotRank1 t.shape_dims.length)))
    ∧ (∀ t, input_tensor c idx = some t → t.shape_dims.length = 1 →
        t.dtype ≠ .DT_INT32 → t.dtype ≠ .DT_INT64 →
        CreateShapeFromShapeTensor c idx =
          (c, .error (.tensorNotIntType t.dtype)))
    ∧ (∀ t, input_tensor c idx = some t → t.shape_dims.length = 1 →
        (t.dtype = .DT_INT32 ∨ t.dtype = .DT_INT64) →
        CreateShapeFromShapeTensor c idx =
          ({ c with
             all_dims_ := c.all_dims_ ++
               t.flat.map (fun v => ⟨some v⟩),
             all_shapes_ := c.all_shapes_ ++
               [⟨some (List.range' c.all_dims_.length t.flat.length)⟩] },
           .ok c.all_shapes_.length)
        ∧ ∀ i, i < t.flat.length →
            Value (CreateShapeFromShapeTensor c idx).1
              (c.all_dims_.length + i) = some (t.flat.getD i 0)) := by
  refine ⟨?_, ?_, ?_, ?_⟩
  · intro h
    simp [CreateShapeFromShapeTensor, h, ReturnUnknownShape,
      CreateUnknownShape]
  · intro t h hr
    simp [CreateShapeFromShapeTensor, h, hr]
  · intro t h hr h32 h64
    cases hd : t.dtype <;>
      simp_all [CreateShapeFromShapeTensor, hr]
  · intro t h hr hdt
    have heq : CreateShapeFromShapeTensor c idx =
        ({ c with
           all_dims_ := c.all_dims_ ++ t.flat.map (fun v => ⟨some v⟩),
           all_shapes_ := c.all_shapes_ ++
             [⟨some (List.range' c.all_dims_.length t.flat.length)⟩] },
         .ok c.all_shapes_.length) := by
      rcases hdt with hdt | hdt <;>
        simp [CreateShapeFromShapeTensor, h, hr, hdt,
          createDimsFromValues_eq, ReturnCreatedShape, CreateShape]
    refine ⟨heq, ?_⟩
    intro i hi
    rw [heq]
    unfold Value getDim
    simp only
    rw [List.getD_append_right _ _ _ _ (by omega),
      List.getD_eq_getElem?_getD]
    have : c.all_dims_.length + i - c.all_dims_.length = i := by omega
    rw [this, List.getElem?_map,
      List.getElem?_eq_getElem (by omega : i < t.flat.length)]
    simp [List.getD_eq_getElem?_getD,
      List.getElem?_eq_getElem (by omega : i < t.flat.length)]

/-- Arena for the C8 witness: a rank-1 int32 shape tensor `[7,-1,9]` at
input 0, a rank-2 tensor at input 1, a float tensor at input 2, no tensor
at input 3. -/
def ctxC8 : InferenceContext :=
  ⟨[], [], [], [],
   [some ⟨[3], .DT_INT32, [7, -1, 9]⟩,
    some ⟨[3, 1], .DT_INT32, [7, 2, 9]⟩,
    some ⟨[2], .DT_FLOAT, [7, 2]⟩,
    none]⟩

theorem C8_shape_from_tensor_witness :
    CreateShapeFromShapeTensor ctxC8 3 =
      ({ ctxC8 with all_shapes_ := [⟨none⟩] }, .ok 0)
    ∧ CreateShapeFromShapeTensor ctxC8 1 =
        (ctxC8, .error (.tensorNotRank1 2))
    ∧ CreateShapeFromShapeTensor ctxC8 2 =
        (ctxC8, .error (.tensorNotIntType .DT_FLOAT))
    ∧ CreateShapeFromShapeTensor ctxC8 0 =
        ({ ctxC8 with
           all_dims_ := [⟨some 7⟩, ⟨some (-1)⟩, ⟨some 9⟩],
           all_shapes_ := [⟨some [0, 1, 2]⟩] },
         .ok 0)
    ∧ Value (CreateShapeFromShapeTensor ctxC8 0).1 1 = some (-1) :=
  ⟨(C8_shape_from_tensor ctxC8 3).1 (by decide),
   (C8_shape_from_tensor ctxC8 1).2.1 ⟨[3, 1], .DT_INT32, [7, 2, 9]⟩
     (by decide) (by decide),
   (C8_shape_from_tensor ctxC8 2).2.2.1 ⟨[2], .DT_FLOAT, [7, 2]⟩
     (by decide) (by decide) (by decide) (by decide),
   ((C8_shape_from_tensor ctxC8 0).2.2.2 ⟨[3], .DT_INT32, [7, -1, 9]⟩
     (by decide) (by decide) (Or.inl rfl)).1,
   ((C8_shape_from_tensor ctxC8 0).2.2.2 ⟨[3], .DT_INT32, [7, -1, 9]⟩
     (by decide) (by decide) (Or.inl rfl)).2 1 (by decide)⟩

/-! ## Scan lemmas for the shape merge -/

theorem mergeScan_ok_of_noConflict (c : InferenceContext) :
    ∀ (l0 l1 : List Nat) (i : Nat) (r0 r1 : Bool),
    noConflict c l0 l1 →
    mergeScan c l0 l1 i r0 r1 =
      .ok (r0 && !block0 c l0 l1, r1 && !block1 c l0 l1) := by
  intro l0
  induction l0 with
  | nil =>
    intro l1 i r0 r1 _
    simp [mergeScan, block0, block1]
  | cons d0 t0 ih =>
    intro l1 i r0 r1 h
    cases l1 with
    | nil => simp [mergeScan, block0, block1]
    | cons d1 t1 =>
      have hh : ¬ axisConflict c d0 d1 := by
        apply h (d0, d1)
        rw [List.zip_cons_cons]
        exact List.mem_cons_self _ _
      have ht : noConflict c t0 t1 := by
        intro p hp
        apply h p
        rw [List.zip_cons_cons]
        exact List.mem_cons_of_mem _ hp
      unfold mergeScan
      by_cases hd : d0 = d1
      · subst hd
        rw [if_pos rfl, ih t1 (i + 1) r0 r1 ht]
        cases hv : Value c d0 <;>
          simp [block0, block1, List.zip_cons_cons, hv]
      · rw [if_neg hd]
        cases hv0 : Value c d0 with
        | none =>
          cases hv1 : Value c d1 with
          | none =>
            rw [ih t1 (i + 1) r0 r1 ht]
            simp [block0, block1, List.zip_cons_cons, hv0, hv1]
          | some v1 =>
            rw [ih t1 (i + 1) false r1 ht]
            simp [block0, block1, List.zip_cons_cons, hv0, hv1]
        | some v0 =>
          cases hv1 : Value c d1 with
          | none =>
            rw [ih t1 (i + 1) r0 false ht]
            simp [block0, block1, List.zip_cons_cons, hv0, hv1]
          | some v1 =>
            have hv : v0 = v1 := by
              by_contra hne
              exact hh ⟨by simp [hv0], by simp [hv1],
                by rw [hv0, hv1]; simp [hne]⟩
            simp only
            rw [if_pos hv, ih t1 (i + 1) r0 r1 ht]
            simp [block0, block1, List.zip_cons_cons, hv0, hv1]

theorem mergeScan_error_first (c : InferenceContext) :
    ∀ (k : Nat) (l0 l1 : List Nat) (i : Nat) (r0 r1 : Bool) (v0 v1 : Int),
    (∀ j, j < k → ¬ axisConflict c (l0.getD j 0) (l1.getD j 0)) →
    k < l0.length → k < l1.length →
    Value c (l0.getD k 0) = some v0 →
    Value c (l1.getD k 0) = some v1 →
    v0 ≠ v1 →
    mergeScan c l0 l1 i r0 r1 = .error (i + k, v0, v1) := by
  intro k
  induction k with
  | zero =>
    intro l0 l1 i r0 r1 v0 v1 _ hk0 hk1 hv0 hv1 hne
    cases l0 with
    | nil => simp at hk0
    | cons d0 t0 =>
      cases l1 with
      | nil => simp at hk1
      | cons d1 t1 =>
        rw [List.getD_cons_zero] at hv0 hv1
        have hd : d0 ≠ d1 := by
          intro he
          rw [he, hv1] at hv0
          exact hne (Option.some.inj hv0).symm
        unfold mergeScan
        rw [if_neg hd, hv0, hv1]
        simp only
        rw [if_neg hne]
        simp
  | succ k ih =>
    intro l0 l1 i r0 r1 v0 v1 hpre hk0 hk1 hv0 hv1 hne
    cases l0 with
    | nil => simp at hk0
    | cons d0 t0 =>
      cases l1 with
      | nil => simp at hk1
      | cons d1 t1 =>
        have hh : ¬ axisConflict c d0 d1 := by
          have := hpre 0 (Nat.succ_pos k)
          simpa using this
        have hpre' : ∀ j, j < k →
            ¬ axisConflict c (t0.getD j 0) (t1.getD j 0) := by
          intro j hj
          have := hpre (j + 1) (by omega)
          simpa [List.getD_cons_succ] using this
        rw [List.getD_cons_succ] at hv0 hv1
        have hk0' : k < t0.length := by simpa using hk0
        have hk1' : k < t1.length := by simpa using hk1
        have harith : i + 1 + k = i + (k + 1) := by omega
        unfold mergeScan
        by_cases hd : d0 = d1
        · rw [if_pos hd,
            ih t0 t1 (i + 1) r0 r1 v0 v1 hpre' hk0' hk1' hv0 hv1 hne,
            harith]
        · rw [if_neg hd]
          cases hw0 : Value c d0 with
          | none =>
            cases hw1 : Value c d1 with
            | none =>
              rw [ih t0 t1 (i + 1) r0 r1 v0 v1 hpre' hk0' hk1' hv0 hv1 hne,
                harith]
            | some w1 =>
              rw [ih t0 t1 (i + 1) false r1 v0 v1 hpre' hk0' hk1' hv0 hv1
                hne, harith]
          | some w0 =>
            cases hw1 : Value c d1 with
            | none =>
              rw [ih t0 t1 (i + 1) r0 false v0 v1 hpre' hk0' hk1' hv0 hv1
                hne, harith]
            | some w1 =>
              have hw : w0 = w1 := by
                by_contra hne'
                exact hh ⟨by simp [hw0], by simp [hw1],
                  by rw [hw0, hw1]; simp [hne']⟩
              simp only
              rw [if_pos hw,
                ih t0 t1 (i + 1) r0 r1 v0 v1 hpre' hk0' hk1' hv0 hv1 hne,
                harith]

theorem exists_conflict_index (c : InferenceContext) :
    ∀ (l0 l1 : List Nat), ¬ noConflict c l0 l1 →
    ∃ k, k < l0.length ∧ k < l1.length ∧
      axisConflict c (l0.getD k 0) (l1.getD k 0) := by
  intro l0
  induction l0 with
  | nil =>
    intro l1 hnc
    exfalso
    apply hnc
    intro p hp
    simp at hp
  | cons d0 t0 ih =>
    intro l1 hnc
    cases l1 with
    | nil =>
      exfalso
      apply hnc
      intro p hp
      simp at hp
    | cons d1 t1 =>
      by_cases hh : axisConflict c d0 d1
      · exact ⟨0, by simp, by simp, by simpa using hh⟩
      · have hnt : ¬ noConflict c t0 t1 := by
          intro hok
          apply hnc
          intro p hp
          rw [List.zip_cons_cons] at hp
          rcases List.mem_cons.mp hp with rfl | hp'
          · exact hh
          · exact hok p hp'
        obtain ⟨k, hk0, hk1, hck⟩ := ih t1 hnt
        exact ⟨k + 1, by simpa using Nat.succ_lt_succ hk0,
          by simpa using Nat.succ_lt_succ hk1,
          by simpa [List.getD_cons_succ] using hck⟩

theorem noConflict_of_mergeScan_ok (c : InferenceContext) (l0 l1 : List Nat)
    (i : Nat) (r0 r1 : Bool) (bb : Bool × Bool)
    (h : mergeScan c l0 l1 i r0 r1 = .ok bb) : noConflict c l0 l1 := by
  by_contra hnc
  have hex : ∃ k, k < l0.length ∧ k < l1.length ∧
      axisConflict c (l0.getD k 0) (l1.getD k 0) :=
    exists_conflict_index c l0 l1 hnc
  classical
  have hfind := Nat.find_spec hex
  set k := Nat.find hex with hkdef
  obtain ⟨hk0, hk1, hconk⟩ := hfind
  obtain ⟨hn0, hn1, hne⟩ := hconk
  obtain ⟨v0, hv0⟩ := Option.ne_none_iff_exists'.mp hn0
  obtain ⟨v1, hv1⟩ := Option.ne_none_iff_exists'.mp hn1
  have hvne : v0 ≠ v1 := by
    intro he
    rw [hv0, hv1, he] at hne
    exact hne rfl
  have hpre : ∀ j, j < k → ¬ axisConflict c (l0.getD j 0) (l1.getD j 0) := by
    intro j hj hconj
    exact Nat.find_min hex hj ⟨by omega, by omega, hconj⟩
  have := mergeScan_error_first c k l0 l1 i r0 r1 v0 v1 hpre hk0 hk1 hv0
    hv1 hvne
  rw [this] at h
  exact absurd h (by simp)

/-! ## Pointwise lemmas about the dimension-merge choice -/

theorem mergeDim_choice_value (c : InferenceContext) (d0 d1 : Nat)
    (h : ¬ axisConflict c d0 d1) :
    ∃ e0 e1, (MergeDim c d0 d1).2 = .ok e0
      ∧ (MergeDim c d1 d0).2 = .ok e1 ∧ Value c e0 = Value c e1 := by
  by_cases hd : d0 = d1
  · subst hd
    exact ⟨d0, d0, by simp [MergeDim], by simp [MergeDim], rfl⟩
  · have hd' : d1 ≠ d0 := Ne.symm hd
    cases hv0 : Value c d0 with
    | none =>
      cases hv1 : Value c d1 with
      | none =>
        refine ⟨d0, d1, ?_, ?_, ?_⟩
        · simp [MergeDim, hd, hv0, hv1]
        · simp [MergeDim, hd', hv0, hv1]
        · rw [hv0, hv1]
      | some v1 =>
        refine ⟨d1, d1, ?_, ?_, rfl⟩
        · simp [MergeDim, hd, hv0, hv1]
        · simp [MergeDim, hd', hv0, hv1]
    | some v0 =>
      cases hv1 : Value c d1 with
      | none =>
        refine ⟨d0, d0, ?_, ?_, rfl⟩
        · simp [MergeDim, hd, hv0, hv1]
        · simp [MergeDim, hd', hv0, hv1]
      | some v1 =>
        have hv : v0 = v1 := by
          by_contra hne
          exact h ⟨by simp [hv0], by simp [hv1],
            by rw [hv0, hv1]; simp [hne]⟩
        refine ⟨d0, d1, ?_, ?_, ?_⟩
        · simp [MergeDim, hd, hv0, hv1, hv]
        · simp [MergeDim, hd', hv0, hv1, hv]
        · rw [hv0, hv1, hv]

theorem mergeDims_getD (c : InferenceContext) :
    ∀ (l0 l1 : List Nat), noConflict c l0 l1 →
    ∀ i, i < l0.length → i < l1.length →
    (MergeDim c (l0.getD i 0) (l1.getD i 0)).2 =
      .ok ((mergeDims c l0 l1).getD i 0) := by
  intro l0
  induction l0 with
  | nil =>
    intro l1 _ i hi
    simp at hi
  | cons d0 t0 ih =>
    intro l1 h i hi0 hi1
    cases l1 with
    | nil => simp at hi1
    | cons d1 t1 =>
      have hh : ¬ axisConflict c d0 d1 := by
        apply h (d0, d1)
        rw [List.zip_cons_cons]
        exact List.mem_cons_self _ _
      have ht : noConflict c t0 t1 := by
        intro p hp
        apply h p
        rw [List.zip_cons_cons]
        exact List.mem_cons_of_mem _ hp
      have hcons : mergeDims c (d0 :: t0) (d1 :: t1) =
          (match (MergeDim c d0 d1).2 with
           | .ok d => d
           | .error _ => d0) :: mergeDims c t0 t1 := rfl
      cases i with
      | zero =>
        obtain ⟨e0, _, hok, _, _⟩ := mergeDim_choice_value c d0 d1 hh
        rw [hcons]
        simp only [List.getD_cons_zero]
        rw [hok]
      | succ i =>
        rw [hcons]
        simp only [List.getD_cons_succ]
        exact ih t1 ht i (by simpa using hi0) (by simpa using hi1)

theorem mergeDims_values_swap (c : InferenceContext) :
    ∀ (l0 l1 : List Nat), noConflict c l0 l1 →
    (mergeDims c l0 l1).map (Value c) =
      (mergeDims c l1 l0).map (Value c) := by
  intro l0
  induction l0 with
  | nil =>
    intro l1 _
    cases l1 <;> simp [mergeDims]
  | cons d0 t0 ih =>
    intro l1 h
    cases l1 with
    | nil => simp [mergeDims]
    | cons d1 t1 =>
      have hh : ¬ axisConflict c d0 d1 := by
        apply h (d0, d1)
        rw [List.zip_cons_cons]
        exact List.mem_cons_self _ _
      have ht : noConflict c t0 t1 := by
        intro p hp
        apply h p
        rw [List.zip_cons_cons]
        exact List.mem_cons_of_mem _ hp
      obtain ⟨e0, e1, hok0, hok1, hval⟩ := mergeDim_choice_value c d0 d1 hh
      unfold mergeDims
      rw [hok0, hok1]
      simp only [List.map_cons]
      rw [hval, ih t1 ht]

/-! ## Symmetry lemmas -/

theorem axisConflict_symm (c : InferenceContext) (d0 d1 : Nat)
    (h : axisConflict c d0 d1) : axisConflict c d1 d0 :=
  ⟨h.2.1, h.1, Ne.symm h.2.2⟩

theorem noConflict_symm (c : InferenceContext) (l0 l1 : List Nat)
    (h : noConflict c l0 l1) : noConflict c l1 l0 := by
  intro p hp
  rw [← List.zip_swap l0 l1] at hp
  obtain ⟨q, hq, hqp⟩ := List.mem_map.mp hp
  intro hcon
  apply h q hq
  have h1 : q.2 = p.1 := by rw [← hqp, Prod.fst_swap]
  have h2 : q.1 = p.2 := by rw [← hqp, Prod.snd_swap]
  rw [← h1, ← h2] at hcon
  exact axisConflict_symm c q.2 q.1 hcon

theorem block0_swap (c : InferenceContext) :
    ∀ (l0 l1 : List Nat), block0 c l1 l0 = block1 c l0 l1 := by
  intro l0
  induction l0 with
  | nil =>
    intro l1
    cases l1 <;> simp [block0, block1]
  | cons d0 t0 ih =>
    intro l1
    cases l1 with
    | nil => simp [block0, block1]
    | cons d1 t1 =>
      unfold block0 block1
      rw [List.zip_cons_cons, List.zip_cons_cons, List.any_cons,
        List.any_cons]
      have htail : (List.zip t1 t0).any
            (fun p => (Value c p.1).isNone && (Value c p.2).isSome) =
          (List.zip t0 t1).any
            (fun p => (Value c p.1).isSome && (Value c p.2).isNone) := by
        have := ih t1
        unfold block0 block1 at this
        exact this
      rw [htail]
      cases hv0 : Value c d0 <;> cases hv1 : Value c d1 <;> simp [hv0, hv1]

theorem values_eq_of_blocks (c : InferenceContext) :
    ∀ (l0 l1 : List Nat), l0.length = l1.length →
    noConflict c l0 l1 → block0 c l0 l1 = false →
    block1 c l0 l1 = false →
    l0.map (Value c) = l1.map (Value c) := by
  intro l0
  induction l0 with
  | nil =>
    intro l1 hlen _ _ _
    cases l1 with
    | nil => rfl
    | cons d1 t1 => simp at hlen
  | cons d0 t0 ih =>
    intro l1 hlen h hb0 hb1
    cases l1 with
    | nil => simp at hlen
    | cons d1 t1 =>
      have hh : ¬ axisConflict c d0 d1 := by
        apply h (d0, d1)
        rw [List.zip_cons_cons]
        exact List.mem_cons_self _ _
      have ht : noConflict c t0 t1 := by
        intro p hp
        apply h p
        rw [List.zip_cons_cons]
        exact List.mem_cons_of_mem _ hp
      unfold block0 at hb0
      unfold block1 at hb1
      rw [List.zip_cons_cons, List.any_cons] at hb0 hb1
      simp only [Bool.or_eq_false_iff] at hb0 hb1
      have htl : t0.map (Value c) = t1.map (Value c) := by
        apply ih t1 (by simpa using hlen) ht
        · unfold block0
          exact hb0.2
        · unfold block1
          exact hb1.2
      have hhead : Value c d0 = Value c d1 := by
        cases hv0 : Value c d0 with
        | none =>
          cases hv1 : Value c d1 with
          | none => rfl
          | some v1 =>
            exfalso
            have := hb0.1
            rw [hv0, hv1] at this
            simp at this
        | some v0 =>
          cases hv1 : Value c d1 with
          | none =>
            exfalso
            have := hb1.1
            rw [hv0, hv1] at this
            simp at this
          | some v1 =>
            have hv : v0 = v1 := by
              by_contra hne
              exact hh ⟨by simp [hv0], by simp [hv1],
                by rw [hv0, hv1]; simp [hne]⟩
            rw [hv]
      simp only [List.map_cons]
      rw [hhead, htl]

theorem shapeDesc_append_self (c : InferenceContext) (sh : Shape) :
    shapeDesc { c with all_shapes_ := c.all_shapes_ ++ [sh] }
      c.all_shapes_.length =
      sh.dims_.map fun ds => ds.map (Value c) := by
  unfold shapeDesc
  rw [getShape_append_self]
  rfl

/-! ## Parsing and rendering lemmas (claim C9) -/

/-- The dimension a parsed axis materializes to (`CreateUnknownDim` for
`?`, `CreateDim` for a number). -/
def axDim : Option Nat → Dimension
  | none => ⟨none⟩
  | some v => ⟨some (v : Int)⟩

theorem digitChar_spec (d : Nat) (h : d < 10) :
    (digitChar d).isDigit = true ∧ digitVal (digitChar d) = d := by
  interval_cases d <;> exact ⟨by decide, by decide⟩

theorem isDigit_ne (ch : Char) (h : ch.isDigit = true) :
    ch ≠ ']' ∧ ch ≠ '?' := by
  constructor <;> intro he <;> subst he <;> exact absurd h (by decide)

theorem natRepr_spec (n : Nat) :
    natRepr n ≠ [] ∧ ∀ ch ∈ natRepr n, ch.isDigit = true := by
  induction n using Nat.strong_induction_on with
  | _ n ih =>
    rw [natRepr.eq_def]
    by_cases h : n < 10
    · simp only [h, if_true]
      refine ⟨by simp, ?_⟩
      intro ch hch
      rw [List.mem_singleton] at hch
      subst hch
      exact (digitChar_spec n h).1
    · simp only [h, if_false]
      have hih := ih (n / 10) (Nat.div_lt_self (by omega) (by omega))
      refine ⟨by simp, ?_⟩
      intro ch hch
      rw [List.mem_append] at hch
      rcases hch with hch | hch
      · exact hih.2 ch hch
      · rw [List.mem_singleton] at hch
        subst hch
        exact (digitChar_spec (n % 10) (Nat.mod_lt _ (by omega))).1

theorem foldl_natRepr (n : Nat) : ∀ a : Nat,
    (natRepr n).foldl (fun x ch => x * 10 + digitVal ch) a =
      a * 10 ^ (natRepr n).length + n := by
  induction n using Nat.strong_induction_on with
  | _ n ih =>
    intro a
    rw [natRepr.eq_def]
    by_cases h : n < 10
    · simp only [h, if_true, List.foldl_cons, List.foldl_nil,
        List.length_singleton]
      rw [(digitChar_spec n h).2]
      ring
    · simp only [h, if_false, List.foldl_append, List.foldl_cons,
        List.foldl_nil, List.length_append, List.length_singleton]
      rw [ih (n / 10) (Nat.div_lt_self (by omega) (by omega)) a,
        (digitChar_spec (n % 10) (Nat.mod_lt _ (by omega))).2]
      have hmod : n / 10 * 10 + n % 10 = n := by omega
      rw [pow_succ]
      calc (a * 10 ^ (natRepr (n / 10)).length + n / 10) * 10 + n % 10
          = a * (10 ^ (natRepr (n / 10)).length * 10) +
              (n / 10 * 10 + n % 10) := by ring
        _ = a * (10 ^ (natRepr (n / 10)).length * 10) + n := by rw [hmod]

theorem parseAxes_rbracket : parseAxes [']'] = some [] := by
  rw [parseAxes.eq_def]
  simp

theorem parseAxes_quest (rest : List Char) :
    parseAxes ('?' :: rest) = parseSep none rest := by
  rw [parseAxes.eq_def]
  simp

theorem parseSep_comma (ax : Option Nat) (rest : List Char) :
    parseSep ax (',' :: rest) = (parseAxes rest).map (fun l => ax :: l) := by
  rw [parseSep.eq_def]
  simp

theorem parseSep_rbracket (ax : Option Nat) :
    parseSep ax [']'] = some [ax] := by
  rw [parseSep.eq_def]
  simp

theorem parseNum_cons_digit (a : Nat) (d : Char) (rest : List Char)
    (h : d.isDigit = true) :
    parseNum a (d :: rest) = parseNum (a * 10 + digitVal d) rest := by
  nth_rewrite 1 [parseNum.eq_def]
  simp [h]

theorem parseNum_nondigit (a : Nat) (ch : Char) (rest : List Char)
    (hch : ch.isDigit = false) (hb : a ≤ int64Max) :
    parseNum a (ch :: rest) = parseSep (some a) (ch :: rest) := by
  nth_rewrite 1 [parseNum.eq_def]
  simp [hch, hb]

theorem parseNum_digits : ∀ (l : List Char),
    (∀ x ∈ l, x.isDigit = true) →
    ∀ (a : Nat) (cs : List Char),
    parseNum a (l ++ cs) =
      parseNum (l.foldl (fun x ch => x * 10 + digitVal ch) a) cs := by
  intro l
  induction l with
  | nil =>
    intro _ a cs
    simp
  | cons d t ih =>
    intro h a cs
    have hd : d.isDigit = true := h d (List.mem_cons_self _ _)
    have ht : ∀ x ∈ t, x.isDigit = true :=
      fun x hx => h x (List.mem_cons_of_mem _ hx)
    rw [List.cons_append, parseNum_cons_digit _ _ _ hd, ih ht,
      List.foldl_cons]

theorem parseAxes_natRepr (n : Nat) (cs : List Char) :
    parseAxes (natRepr n ++ cs) = parseNum n cs := by
  obtain ⟨hne, hdig⟩ := natRepr_spec n
  obtain ⟨ch, l, hcl⟩ : ∃ ch l, natRepr n = ch :: l := by
    cases hr : natRepr n with
    | nil => exact absurd hr hne
    | cons a b => exact ⟨a, b, rfl⟩
  have hch : ch.isDigit = true :=
    hdig ch (by rw [hcl]; exact List.mem_cons_self _ _)
  have hl : ∀ x ∈ l, x.isDigit = true :=
    fun x hx => hdig x (by rw [hcl]; exact List.mem_cons_of_mem _ hx)
  obtain ⟨hne1, hne2⟩ := isDigit_ne ch hch
  have hfold : l.foldl (fun x ch => x * 10 + digitVal ch) (digitVal ch)
      = n := by
    have := foldl_natRepr n 0
    rw [hcl, List.foldl_cons] at this
    simpa using this
  rw [hcl, List.cons_append, parseAxes.eq_def]
  simp only [if_neg hne1, if_neg hne2, hch, if_true]
  rw [parseNum_digits l hl, hfold]

theorem parseAxes_render : ∀ (axes : List (Option Nat)),
    (∀ ax ∈ axes, ax.getD 0 ≤ int64Max) →
    parseAxes ((joinComma (axes.map axisString)).data ++ [']']) =
      some axes := by
  intro axes
  induction axes with
  | nil =>
    intro _
    simp only [List.map_nil, joinComma]
    rw [List.nil_append, parseAxes_rbracket]
  | cons ax rest ih =>
    intro h
    have hax : ax.getD 0 ≤ int64Max := h ax (List.mem_cons_self _ _)
    have hrest : ∀ a ∈ rest, a.getD 0 ≤ int64Max :=
      fun a ha => h a (List.mem_cons_of_mem _ ha)
    cases rest with
    | nil =>
      simp only [List.map_cons, List.map_nil, joinComma]
      cases ax with
      | none =>
        rw [show (axisString none).data = ['?'] from rfl, List.cons_append,
          List.nil_append, parseAxes_quest, parseSep_rbracket]
      | some n =>
        have hn : n ≤ int64Max := by simpa using hax
        rw [show (axisString (some n)).data = natRepr n from rfl,
          parseAxes_natRepr,
          parseNum_nondigit n ']' [] (by decide) hn, parseSep_rbracket]
    | cons ax2 rest2 =>
      have hjoin : joinComma (axisString ax :: (ax2 :: rest2).map axisString)
          = axisString ax ++ "," ++
            joinComma ((ax2 :: rest2).map axisString) := by
        simp [joinComma]
      simp only [List.map_cons] at hjoin ⊢
      rw [hjoin]
      have hdata : (axisString ax ++ "," ++
          joinComma (axisString ax2 :: rest2.map axisString)).data
          = (axisString ax).data ++ ',' ::
            (joinComma (axisString ax2 :: rest2.map axisString)).data := by
        rw [String.data_append, String.data_append]
        simp
      rw [hdata, List.append_assoc, List.cons_append]
      have hih := ih hrest
      simp only [List.map_cons] at hih
      cases ax with
      | none =>
        rw [show (axisString none).data = ['?'] from rfl, List.cons_append,
          List.nil_append, parseAxes_quest, parseSep_comma, hih]
        rfl
      | some n =>
        have hn : n ≤ int64Max := by simpa using hax
        rw [show (axisString (some n)).data = natRepr n from rfl,
          parseAxes_natRepr,
          parseNum_nondigit n ',' _ (by decide) hn, parseSep_comma, hih]
        rfl

theorem materializeAxes_eq : ∀ (axes : List (Option Nat))
    (c : InferenceContext),
    materializeAxes c axes =
      ({ c with all_dims_ := c.all_dims_ ++ axes.map axDim },
       List.range' c.all_dims_.length axes.length) := by
  intro axes
  induction axes with
  | nil =>
    intro c
    simp [materializeAxes]
  | cons ax rest ih =>
    intro c
    cases ax with
    | none =>
      simp [materializeAxes, CreateUnknownDim, ih, axDim,
        List.range'_succ, List.append_assoc]
    | some v =>
      simp [materializeAxes, CreateDim, ih, axDim, List.range'_succ,
        List.append_assoc]

theorem intRepr_natCast (v : Nat) : intRepr (v : Int) = natRepr v := by
  unfold intRepr
  rw [if_neg (not_lt.mpr (Int.natCast_nonneg v)), Int.toNat_natCast]

theorem map_debug_materialized (c : InferenceContext) :
    ∀ (axes : List (Option Nat)) (pre : List Dimension),
    c.all_dims_ = pre ++ axes.map axDim →
    (List.range' pre.length axes.length).map (DebugStringDim c) =
      axes.map axisString := by
  intro axes
  induction axes with
  | nil =>
    intro pre _
    simp
  | cons ax rest ih =>
    intro pre hdims
    have hhead : DebugStringDim c pre.length = axisString ax := by
      have hv : Value c pre.length = (axDim ax).value_ := by
        unfold Value getDim
        rw [hdims, List.getD_append_right _ _ _ _ (le_refl _), Nat.sub_self]
        simp only [List.map_cons, List.getD_cons_zero]
      cases ax with
      | none =>
        unfold DebugStringDim
        rw [hv]
        rfl
      | some n =>
        unfold DebugStringDim
        rw [hv]
        simp only [axDim]
        rw [intRepr_natCast]
        rfl
    have htail := ih (pre ++ [axDim ax])
      (by rw [hdims]; simp [List.append_assoc])
    rw [List.length_append, List.length_singleton] at htail
    simp only [List.length_cons, List.range'_succ, List.map_cons]
    rw [hhead, htail]

theorem addInputShape_render (axes : List (Option Nat))
    (c : InferenceContext) (h : ∀ ax ∈ axes, ax.getD 0 ≤ int64Max) :
    addInputShape c (specString (some axes)) =
      some { c with
        all_dims_ := c.all_dims_ ++ axes.map axDim,
        all_shapes_ := c.all_shapes_ ++
          [⟨some (List.range' c.all_dims_.length axes.length)⟩],
        inputs_ := c.inputs_ ++ [c.all_shapes_.length] } := by
  have hdata : (specString (some axes)).data =
      '[' :: ((joinComma (axes.map axisString)).data ++ [']']) := by
    unfold specString
    rw [String.data_append, String.data_append]
    rfl
  have hne : specString (some axes) ≠ "?" := by
    intro he
    have := congrArg String.data he
    rw [hdata] at this
    simp at this
  unfold addInputShape
  rw [if_neg hne, hdata]
  simp only
  rw [parseAxes_render axes h]
  simp only
  rw [materializeAxes_eq]
  simp [CreateShape]

/-- C9: for every shape expressible in the §4.8 grammar — rank-unknown
`?`, or a bracketed comma-separated list of `?` and canonically written
non-negative decimal integers that fit in a signed 64-bit value — feeding
its specifier text to the session constructor and rendering the resulting
input shape yields the specifier text back. -/
theorem C9_round_trip (t : Option (List (Option Nat)))
    (h : specWellFormed t) :
    (mkContext [specString t] 0 []).map
      (fun c => DebugStringShape c (c.inputs_.getD 0 0)) =
      some (specString t) := by
  cases t with
  | none => rfl
  | some axes =>
    have hb : ∀ ax ∈ axes, ax.getD 0 ≤ int64Max := h
    unfold mkContext
    rw [if_neg (by simp)]
    unfold addAllInputs
    rw [addInputShape_render axes ⟨[], [], [], [], []⟩ hb]
    simp only [addAllInputs, addOutputs, List.nil_append, List.length_nil,
      List.length_cons, Option.map_some']
    have hshape : DebugStringShape
        ⟨axes.map axDim, [⟨some (List.range' 0 axes.length)⟩], [0], [],
          List.replicate (1 - 0) none⟩
        (([0] : List Nat).getD 0 0) =
        specString (some axes) := by
      unfold DebugStringShape getShape
      simp only [List.getD_cons_zero]
      have hmap := map_debug_materialized
        ⟨axes.map axDim, [⟨some (List.range' 0 axes.length)⟩], [0], [],
          List.replicate (1 - 0) none⟩ axes [] (by simp)
      simp only [List.length_nil] at hmap
      rw [hmap]
      rfl
    rw [hshape]

/-- C9 witness: the specifier `[2,?,3]` round-trips. -/
theorem C9_round_trip_witness :
    specWellFormed (some [some 2, none, some 3])
    ∧ (mkContext [specString (some [some 2, none, some 3])] 0 []).map
        (fun c => DebugStringShape c (c.inputs_.getD 0 0)) =
      some (specString (some [some 2, none, some 3])) :=
  ⟨by decide, C9_round_trip (some [some 2, none, some 3]) (by decide)⟩

/-! ## Claim C1: the shape merge algorithm. -/

/-- C1: shape merge follows the source algorithm exactly — identical
handles or rank-unknown `s1` return `s0`; rank-unknown `s0` returns `s1`;
known differing ranks fail with a rank-conflict error; the per-axis scan
fails with a dimension-conflict error naming the two values at the first
axis whose two values are known and different (whatever the earlier axes
contributed); on success it returns `s0` when `s0` can represent all of
`s1`'s per-axis knowledge (`block0 = false`), else `s1` when `s1` can,
else a freshly constructed shape whose axis-i dimension is the
dimension-merge of the operands' axis-i dimensions. -/
theorem C1_shape_merge (c : InferenceContext) (s0 s1 : Nat) :
    (s0 = s1 → MergeShape c s0 s1 = (c, .ok s0))
    ∧ ((getShape c s1).dims_ = none → MergeShape c s0 s1 = (c, .ok s0))
    ∧ (s0 ≠ s1 → (getShape c s0).dims_ = none →
        (getShape c s1).dims_ ≠ none → MergeShape c s0 s1 = (c, .ok s1))
    ∧ (∀ ds0 ds1, s0 ≠ s1 → (getShape c s0).dims_ = some ds0 →
        (getShape c s1).dims_ = some ds1 → ds0.length ≠ ds1.length →
        MergeShape c s0 s1 =
          (c, .error (.rankConflict ds0.length ds1.length)))
    ∧ (∀ ds0 ds1 k v0 v1, s0 ≠ s1 → (getShape c s0).dims_ = some ds0 →
        (getShape c s1).dims_ = some ds1 → ds0.length = ds1.length →
        (∀ j, j < k → ¬ axisConflict c (ds0.getD j 0) (ds1.getD j 0)) →
        k < ds0.length →
        Value c (ds0.getD k 0) = some v0 →
        Value c (ds1.getD k 0) = some v1 → v0 ≠ v1 →
        MergeShape c s0 s1 = (c, .error (.dimConflictAt k v0 v1)))
    ∧ (∀ ds0 ds1, s0 ≠ s1 → (getShape c s0).dims_ = some ds0 →
        (getShape c s1).dims_ = some ds1 → ds0.length = ds1.length →
        noConflict c ds0 ds1 →
        (block0 c ds0 ds1 = false → MergeShape c s0 s1 = (c, .ok s0))
        ∧ (block0 c ds0 ds1 = true → block1 c ds0 ds1 = false →
            MergeShape c s0 s1 = (c, .ok s1))
        ∧ (block0 c ds0 ds1 = true → block1 c ds0 ds1 = true →
            MergeShape c s0 s1 =
              ({ c with all_shapes_ := c.all_shapes_ ++
                  [⟨some (mergeDims c ds0 ds1)⟩] },
               .ok c.all_shapes_.length)
            ∧ ∀ i, i < ds0.length →
                (MergeDim c (ds0.getD i 0) (ds1.getD i 0)).2 =
                  .ok ((mergeDims c ds0 ds1).getD i 0))) := by
  refine ⟨?_, ?_, ?_, ?_, ?_, ?_⟩
  · intro h
    simp [MergeShape, h]
  · intro h
    by_cases hs : s0 = s1
    · simp [MergeShape, hs]
    · cases h0 : (getShape c s0).dims_ <;> simp [MergeShape, hs, h0, h]
  · intro hs h0 h1
    obtain ⟨ds1, hds1⟩ := Option.ne_none_iff_exists'.mp h1
    simp [MergeShape, hs, h0, hds1]
  · intro ds0 ds1 hs h0 h1 hl
    simp [MergeShape, hs, h0, h1, hl]
  · intro ds0 ds1 k v0 v1 hs h0 h1 hlen hpre hk hv0 hv1 hne
    have hscan := mergeScan_error_first c k ds0 ds1 0 true true v0 v1 hpre
      hk (by omega) hv0 hv1 hne
    simp [MergeShape, hs, h0, h1, hlen, hscan]
  · intro ds0 ds1 hs h0 h1 hlen hnc
    have hscan := mergeScan_ok_of_noConflict c ds0 ds1 0 true true hnc
    refine ⟨?_, ?_, ?_⟩
    · intro hb0
      simp [MergeShape, hs, h0, h1, hlen, hscan, hb0]
    · intro hb0 hb1
      simp [MergeShape, hs, h0, h1, hlen, hscan, hb0, hb1]
    · intro hb0 hb1
      refine ⟨?_, ?_⟩
      · simp [MergeShape, hs, h0, h1, hlen, hscan, hb0, hb1,
          ReturnCreatedShape, CreateShape]
      · intro i hi
        exact mergeDims_getD c ds0 ds1 hnc i hi (by omega)

/-- Arena for the C1 witness: dimensions 2, ?, 3, ?, 5, 3, 4, 2, 3, 2, ?, ?
(handles 0-11) and shapes `[2,?,3]`, `[?,5,3]`, `?`, `[2,?]`, `[2,3]`,
`[2,4]`, `[2,?,?]` (handles 0-6). -/
def ctxC1 : InferenceContext :=
  ⟨[⟨some 2⟩, ⟨none⟩, ⟨some 3⟩, ⟨none⟩, ⟨some 5⟩, ⟨some 3⟩, ⟨some 4⟩,
    ⟨some 2⟩, ⟨some 3⟩, ⟨some 2⟩, ⟨none⟩, ⟨none⟩],
   [⟨some [0, 1, 2]⟩, ⟨some [3, 4, 5]⟩, ⟨none⟩, ⟨some [0, 1]⟩,
    ⟨some [7, 8]⟩, ⟨some [9, 6]⟩, ⟨some [0, 10, 11]⟩],
   [], [], []⟩

theorem C1_shape_merge_witness :
    MergeShape ctxC1 0 0 = (ctxC1, .ok 0)
    ∧ MergeShape ctxC1 0 2 = (ctxC1, .ok 0)
    ∧ MergeShape ctxC1 2 1 = (ctxC1, .ok 1)
    ∧ MergeShape ctxC1 0 3 = (ctxC1, .error (.rankConflict 3 2))
    ∧ MergeShape ctxC1 4 5 = (ctxC1, .error (.dimConflictAt 1 3 4))
    ∧ MergeShape ctxC1 0 6 = (ctxC1, .ok 0)
    ∧ MergeShape ctxC1 6 0 = (ctxC1, .ok 0)
    ∧ MergeShape ctxC1 0 1 =
        ({ ctxC1 with all_shapes_ := ctxC1.all_shapes_ ++
            [⟨some [0, 4, 2]⟩] },
         .ok 7) :=
  ⟨(C1_shape_merge ctxC1 0 0).1 rfl,
   (C1_shape_merge ctxC1 0 2).2.1 (by decide),
   (C1_shape_merge ctxC1 2 1).2.2.1 (by decide) (by decide) (by decide),
   (C1_shape_merge ctxC1 0 3).2.2.2.1 [0, 1, 2] [0, 1] (by decide)
     (by decide) (by decide) (by decide),
   (C1_shape_merge ctxC1 4 5).2.2.2.2.1 [7, 8] [9, 6] 1 3 4 (by decide)
     (by decide) (by decide) (by decide) (by decide) (by decide)
     (by decide) (by decide) (by decide),
   ((C1_shape_merge ctxC1 0 6).2.2.2.2.2 [0, 1, 2] [0, 10, 11] (by decide)
     (by decide) (by decide) (by decide) (by decide)).1 (by decide),
   ((C1_shape_merge ctxC1 6 0).2.2.2.2.2 [0, 10, 11] [0, 1, 2] (by decide)
     (by decide) (by decide) (by decide) (by decide)).2.1 (by decide)
     (by decide),
   (by
     have h := ((C1_shape_merge ctxC1 0 1).2.2.2.2.2 [0, 1, 2] [3, 4, 5]
       (by decide) (by decide) (by decide) (by decide) (by decide)).2.2
       (by decide) (by decide)
     exact h.1.trans (by decide))⟩

/-! ## Claim C4: commutativity of successful shape merges. -/

/-- C4: whenever `merge(s0, s1)` and `merge(s1, s0)` both succeed, the two
results describe the same logical shape — same rank-known status, same
rank, and the same known-or-unknown resolved value at every axis — though
the returned handles may differ. -/
theorem C4_merge_commutative (c : InferenceContext) (s0 s1 : Nat)
    (c01 c10 : InferenceContext) (h0 h1 : Nat)
    (hA : MergeShape c s0 s1 = (c01, .ok h0))
    (hB : MergeShape c s1 s0 = (c10, .ok h1)) :
    shapeDesc c01 h0 = shapeDesc c10 h1 := by
  by_cases hs : s0 = s1
  · subst hs
    have hAval : MergeShape c s0 s0 = (c, .ok s0) := by simp [MergeShape]
    rw [hAval] at hA hB
    simp only [Prod.mk.injEq, Except.ok.injEq] at hA hB
    obtain ⟨rfl, rfl⟩ := hA
    obtain ⟨rfl, rfl⟩ := hB
    rfl
  · have hs' : ¬ s1 = s0 := fun h => hs h.symm
    cases hd0 : (getShape c s0).dims_ with
    | none =>
      cases hd1 : (getShape c s1).dims_ with
      | none =>
        have hAval : MergeShape c s0 s1 = (c, .ok s0) := by
          simp [MergeShape, hs, hd0, hd1]
        have hBval : MergeShape c s1 s0 = (c, .ok s1) := by
          simp [MergeShape, hs', hd0, hd1]
        rw [hAval] at hA
        rw [hBval] at hB
        simp only [Prod.mk.injEq, Except.ok.injEq] at hA hB
        obtain ⟨rfl, rfl⟩ := hA
        obtain ⟨rfl, rfl⟩ := hB
        simp [shapeDesc, hd0, hd1]
      | some ds1 =>
        have hAval : MergeShape c s0 s1 = (c, .ok s1) := by
          simp [MergeShape, hs, hd0, hd1]
        have hBval : MergeShape c s1 s0 = (c, .ok s1) := by
          simp [MergeShape, hs', hd0, hd1]
        rw [hAval] at hA
        rw [hBval] at hB
        simp only [Prod.mk.injEq, Except.ok.injEq] at hA hB
        obtain ⟨rfl, rfl⟩ := hA
        obtain ⟨rfl, rfl⟩ := hB
        rfl
    | some ds0 =>
      cases hd1 : (getShape c s1).dims_ with
      | none =>
        have hAval : MergeShape c s0 s1 = (c, .ok s0) := by
          simp [MergeShape, hs, hd0, hd1]
        have hBval : MergeShape c s1 s0 = (c, .ok s0) := by
          simp [MergeShape, hs', hd0, hd1]
        rw [hAval] at hA
        rw [hBval] at hB
        simp only [Prod.mk.injEq, Except.ok.injEq] at hA hB
        obtain ⟨rfl, rfl⟩ := hA
        obtain ⟨rfl, rfl⟩ := hB
        rfl
      | some ds1 =>
        by_cases hl : ds0.length = ds1.length
        · have hll : ¬ ds0.length ≠ ds1.length := by omega
          have hll' : ¬ ds1.length ≠ ds0.length := by omega
          cases hscanA : mergeScan c ds0 ds1 0 true true with
          | error e =>
            rw [MergeShape] at hA
            simp [hs, hd0, hd1, hll, hscanA] at hA
          | ok flags =>
            have hnc := noConflict_of_mergeScan_ok c ds0 ds1 0 true true
              flags hscanA
            have hnc' := noConflict_symm c ds0 ds1 hnc
            have hscanA' := mergeScan_ok_of_noConflict c ds0 ds1 0 true
              true hnc
            have hscanB := mergeScan_ok_of_noConflict c ds1 ds0 0 true
              true hnc'
            have hsw1 : block0 c ds1 ds0 = block1 c ds0 ds1 :=
              block0_swap c ds0 ds1
            have hsw2 : block1 c ds1 ds0 = block0 c ds0 ds1 :=
              (block0_swap c ds1 ds0).symm
            rw [hsw1, hsw2] at hscanB
            cases hb0 : block0 c ds0 ds1 <;> cases hb1 : block1 c ds0 ds1
            · -- both blocks false: A returns s0, B returns s1, and the
              -- per-axis values coincide
              rw [hb0, hb1] at hscanA' hscanB
              simp only [Bool.not_false, Bool.and_true] at hscanA' hscanB
              have hAval : MergeShape c s0 s1 = (c, .ok s0) := by
                simp [MergeShape, hs, hd0, hd1, hll, hscanA']
              have hBval : MergeShape c s1 s0 = (c, .ok s1) := by
                simp [MergeShape, hs', hd0, hd1, hll', hscanB]
              rw [hAval] at hA
              rw [hBval] at hB
              simp only [Prod.mk.injEq, Except.ok.injEq] at hA hB
              obtain ⟨rfl, rfl⟩ := hA
              obtain ⟨rfl, rfl⟩ := hB
              have hv := values_eq_of_blocks c ds0 ds1 hl hnc hb0 hb1
              simp [shapeDesc, hd0, hd1, hv]
            · -- block1 only: both directions return s0
              rw [hb0, hb1] at hscanA' hscanB
              simp only [Bool.not_false, Bool.not_true, Bool.and_true,
                Bool.and_false] at hscanA' hscanB
              have hAval : MergeShape c s0 s1 = (c, .ok s0) := by
                simp [MergeShape, hs, hd0, hd1, hll, hscanA']
              have hBval : MergeShape c s1 s0 = (c, .ok s0) := by
                simp [MergeShape, hs', hd0, hd1, hll', hscanB]
              rw [hAval] at hA
              rw [hBval] at hB
              simp only [Prod.mk.injEq, Except.ok.injEq] at hA hB
              obtain ⟨rfl, rfl⟩ := hA
              obtain ⟨rfl, rfl⟩ := hB
              rfl
            · -- block0 only: both directions return s1
              rw [hb0, hb1] at hscanA' hscanB
              simp only [Bool.not_false, Bool.not_true, Bool.and_true,
                Bool.and_false] at hscanA' hscanB
              have hAval : MergeShape c s0 s1 = (c, .ok s1) := by
                simp [MergeShape, hs, hd0, hd1, hll, hscanA']
              have hBval : MergeShape c s1 s0 = (c, .ok s1) := by
                simp [MergeShape, hs', hd0, hd1, hll', hscanB]
              rw [hAval] at hA
              rw [hBval] at hB
              simp only [Prod.mk.injEq, Except.ok.injEq] at hA hB
              obtain ⟨rfl, rfl⟩ := hA
              obtain ⟨rfl, rfl⟩ := hB
              rfl
            · -- both blocks: both directions construct fresh shapes with
              -- value-equal merged dimensions
              rw [hb0, hb1] at hscanA' hscanB
              simp only [Bool.not_true, Bool.and_false] at hscanA' hscanB
              have hAval : MergeShape c s0 s1 =
                  ({ c with all_shapes_ := c.all_shapes_ ++
                      [⟨some (mergeDims c ds0 ds1)⟩] },
                   .ok c.all_shapes_.length) := by
                simp [MergeShape, hs, hd0, hd1, hll, hscanA',
                  ReturnCreatedShape, CreateShape]
              have hBval : MergeShape c s1 s0 =
                  ({ c with all_shapes_ := c.all_shapes_ ++
                      [⟨some (mergeDims c ds1 ds0)⟩] },
                   .ok c.all_shapes_.length) := by
                simp [MergeShape, hs', hd0, hd1, hll', hscanB,
                  ReturnCreatedShape, CreateShape]
              rw [hAval] at hA
              rw [hBval] at hB
              simp only [Prod.mk.injEq, Except.ok.injEq] at hA hB
              obtain ⟨rfl, rfl⟩ := hA
              obtain ⟨rfl, rfl⟩ := hB
              rw [shapeDesc_append_self, shapeDesc_append_self]
              simp only [Option.map_some']
              rw [mergeDims_values_swap c ds0 ds1 hnc]
        · -- different ranks: both directions fail, contradicting success
          have hll : ds0.length ≠ ds1.length := hl
          rw [MergeShape] at hA
          simp [hs, hd0, hd1, hll] at hA

/-- Arena for the C4 witness: shapes `[2,?,3]` and `[?,5,3]` (the merge
succeeds in both orders with a fresh shape). -/
def ctxC4 : InferenceContext :=
  ⟨[⟨some 2⟩, ⟨none⟩, ⟨some 3⟩, ⟨none⟩, ⟨some 5⟩, ⟨some 3⟩],
   [⟨some [0, 1, 2]⟩, ⟨some [3, 4, 5]⟩], [], [], []⟩

theorem C4_merge_commutative_witness :
    shapeDesc (MergeShape ctxC4 0 1).1 2 =
      shapeDesc (MergeShape ctxC4 1 0).1 2 :=
  C4_merge_commutative ctxC4 0 1 (MergeShape ctxC4 0 1).1
    (MergeShape ctxC4 1 0).1 2 2 (by decide) (by decide)

/-! ## Claim C10: atomic failure. -/

/-- C10: whenever any fallible operation (`WithRank`, `WithValue`,
dimension `Merge`, shape `Merge`, `Subshape`,
`CreateShapeFromShapeTensor`) returns an error, the session is exactly as
it was before the call — no dimension or shape has been added to the arena
and the inputs/outputs/tensor lists are untouched (the out-parameter case
is the `.error` result itself, which carries no handle). -/
theorem withRank_unchanged_or_ok (c : InferenceContext) (s r : Nat) :
    (WithRank c s r).1 = c ∨ ∃ h, (WithRank c s r).2 = .ok h := by
  unfold WithRank
  cases Rank c s with
  | some ex =>
    by_cases he : ex = r
    · exact Or.inr ⟨s, by simp [he]⟩
    · exact Or.inl (by simp [he])
  | none => exact Or.inr ⟨_, rfl⟩

theorem withValue_unchanged_or_ok (c : InferenceContext) (d : Nat) (v : Int) :
    (WithValue c d v).1 = c ∨ ∃ h, (WithValue c d v).2 = .ok h := by
  unfold WithValue
  cases Value c d with
  | some ex =>
    by_cases he : ex = v
    · exact Or.inr ⟨d, by simp [he]⟩
    · exact Or.inl (by simp [he])
  | none => exact Or.inr ⟨_, rfl⟩

theorem mergeShape_unchanged_or_ok (c : InferenceContext) (s0 s1 : Nat) :
    (MergeShape c s0 s1).1 = c ∨ ∃ h, (MergeShape c s0 s1).2 = .ok h := by
  unfold MergeShape
  by_cases hs : s0 = s1
  · exact Or.inr ⟨s0, by simp [hs]⟩
  · simp only [hs, if_false]
    cases (getShape c s0).dims_ with
    | none =>
      cases (getShape c s1).dims_ with
      | none => exact Or.inr ⟨s0, rfl⟩
      | some ds1 => exact Or.inr ⟨s1, rfl⟩
    | some ds0 =>
      cases (getShape c s1).dims_ with
      | none => exact Or.inr ⟨s0, rfl⟩
      | some ds1 =>
        simp only
        by_cases hl : ds0.length ≠ ds1.length
        · exact Or.inl (by simp [hl])
        · simp only [hl, if_false]
          cases mergeScan c ds0 ds1 0 true true with
          | error e => exact Or.inl rfl
          | ok flags =>
            simp only
            by_cases hf : (flags.1 || flags.2) = true
            · exact Or.inr ⟨if flags.1 then s0 else s1, by simp [hf]⟩
            · refine Or.inr ⟨c.all_shapes_.length, ?_⟩
              simp only [hf]
              rfl

theorem subshape_unchanged_or_ok (c : InferenceContext) (s : Nat)
    (st : Int) :
    (Subshape c s st).1 = c ∨ ∃ h, (Subshape c s st).2 = .ok h := by
  unfold Subshape
  by_cases h1 : st < 0
  · exact Or.inl (by simp [h1])
  · by_cases h2 : st = 0
    · exact Or.inr ⟨s, by simp [h1, h2]⟩
    · simp only [h1, h2, if_false]
      cases (getShape c s).dims_ with
      | none => exact Or.inr ⟨_, rfl⟩
      | some ds =>
        simp only
        by_cases h3 : (ds.length : Int) < st
        · exact Or.inl (by simp [h3])
        · refine Or.inr ⟨c.all_shapes_.length, ?_⟩
          simp only [h3, if_false]
          rfl

theorem shapeFromTensor_unchanged_or_ok (c : InferenceContext) (i : Nat) :
    (CreateShapeFromShapeTensor c i).1 = c
    ∨ ∃ h, (CreateShapeFromShapeTensor c i).2 = .ok h := by
  unfold CreateShapeFromShapeTensor
  cases input_tensor c i with
  | none => exact Or.inr ⟨_, rfl⟩
  | some t =>
    simp only
    by_cases hr : t.shape_dims.length ≠ 1
    · exact Or.inl (by simp [hr])
    · simp only [hr, if_false]
      cases t.dtype with
      | DT_INT32 => exact Or.inr ⟨_, rfl⟩
      | DT_INT64 => exact Or.inr ⟨_, rfl⟩
      | DT_FLOAT => exact Or.inl rfl
      | DT_STRING => exact Or.inl rfl
      | DT_BOOL => exact Or.inl rfl

theorem C10_atomic_failure (c : InferenceContext) :
    (∀ s r e, (WithRank c s r).2 = .error e → (WithRank c s r).1 = c)
    ∧ (∀ d v e, (WithValue c d v).2 = .error e → (WithValue c d v).1 = c)
    ∧ (∀ d0 d1 e, (MergeDim c d0 d1).2 = .error e →
        (MergeDim c d0 d1).1 = c)
    ∧ (∀ s0 s1 e, (MergeShape c s0 s1).2 = .error e →
        (MergeShape c s0 s1).1 = c)
    ∧ (∀ s st e, (Subshape c s st).2 = .error e → (Subshape c s st).1 = c)
    ∧ (∀ i e, (CreateShapeFromShapeTensor c i).2 = .error e →
        (CreateShapeFromShapeTensor c i).1 = c) := by
  refine ⟨?_, ?_, ?_, ?_, ?_, ?_⟩
  · intro s r e h
    rcases withRank_unchanged_or_ok c s r with hc | ⟨h', hok⟩
    · exact hc
    · rw [hok] at h
      exact absurd h (by simp)
  · intro d v e h
    rcases withValue_unchanged_or_ok c d v with hc | ⟨h', hok⟩
    · exact hc
    · rw [hok] at h
      exact absurd h (by simp)
  · intro d0 d1 e _
    exact mergeDim_fst c d0 d1
  · intro s0 s1 e h
    rcases mergeShape_unchanged_or_ok c s0 s1 with hc | ⟨h', hok⟩
    · exact hc
    · rw [hok] at h
      exact absurd h (by simp)
  · intro s st e h
    rcases subshape_unchanged_or_ok c s st with hc | ⟨h', hok⟩
    · exact hc
    · rw [hok] at h
      exact absurd h (by simp)
  · intro i e h
    rcases shapeFromTensor_unchanged_or_ok c i with hc | ⟨h', hok⟩
    · exact hc
    · rw [hok] at h
      exact absurd h (by simp)

/-- Arena for the C10 witness: known dims 5 and 7, shapes `[5]`, `[7]`,
`[5,7]`, and a rank-2 tensor at input 0. -/
def ctxC10 : InferenceContext :=
  ⟨[⟨some 5⟩, ⟨some 7⟩], [⟨some [0]⟩, ⟨some [1]⟩, ⟨some [0, 1]⟩], [], [],
   [some ⟨[2, 2], .DT_INT32, [1, 2, 3, 4]⟩]⟩

theorem C10_atomic_failure_witness :
    (WithRank ctxC10 0 3).1 = ctxC10
    ∧ (WithValue ctxC10 0 9).1 = ctxC10
    ∧ (MergeDim ctxC10 0 1).1 = ctxC10
    ∧ (MergeShape ctxC10 0 2).1 = ctxC10
    ∧ (Subshape ctxC10 0 (-1)).1 = ctxC10
    ∧ (CreateShapeFromShapeTensor ctxC10 0).1 = ctxC10 :=
  ⟨(C10_atomic_failure ctxC10).1 0 3 (.rankMismatch 3 1) (by decide),
   (C10_atomic_failure ctxC10).2.1 0 9 (.valueMismatch 9 5) (by decide),
   (C10_atomic_failure ctxC10).2.2.1 0 1 (.dimConflict 5 7) (by decide),
   (C10_atomic_failure ctxC10).2.2.2.1 0 2 (.rankConflict 1 2) (by decide),
   (C10_atomic_failure ctxC10).2.2.2.2.1 0 (-1) (.negativeStart (-1))
     (by decide),
   (C10_atomic_failure ctxC10).2.2.2.2.2 0 (.tensorNotRank1 2) (by decide)⟩

end SI
